import Mathlib

/-!
# Verification of the geomorpher library against its specification

Shallow embedding of the geomorpher sources (the `GeoMorpher` engine module,
`src/utils/enrichment.js`, `src/utils/cartogram.js`, `src/utils/projection.js`)
in Lean 4, together with theorems settling the specification claims.

Modelling conventions:
* JavaScript numbers are modelled as exact rationals `ℚ`.  All coordinates that
  the claims exercise are finite; the `Number.isFinite` guards of the source
  therefore always pass on modelled values and `NaN`/`Infinity` handling is
  noted where the source checks for it.
* Coordinates are well-formed pairs: the source's defensive checks for
  non-array / too-short coordinate entries always succeed on modelled values.
* JavaScript objects are modelled as association lists that keep the first
  insertion position of a key and overwrite its value in place, which is the
  JS property-order semantics used by the source.
* `lodash.cloneDeep` is the identity on the pure value model (the aliasing
  claims are settled over a separate object-identity model at the end of the
  development).
-/

/-- JavaScript runtime values as they occur in data rows and feature
properties.  Arrays are encoded as cons-chains (`arrCons`/`arrNil`) so that
equality stays derivable.  Numeric-string coercion (`Number("5")`) is not
modelled; no claim exercises it. -/
inductive JVal where
  | num (q : ℚ)
  | str (s : String)
  | boolV (b : Bool)
  | null
  | undef
  | arrNil
  | arrCons (hd tl : JVal)
  deriving DecidableEq, Repr

/-- JS truthiness of a modelled value (`!v` in the source).  `NaN` is not
modelled (see module comment). -/
def JVal.truthy : JVal → Bool
  | .num q => decide (q ≠ 0)
  | .str s => decide (s ≠ "")
  | .boolV b => b
  | .null => false
  | .undef => false
  | .arrNil => true
  | .arrCons _ _ => true

/-- JS `Number(v)` coercion; `Option.none` stands for `NaN`.  Numeric strings
are not modelled and coerce to `NaN`; a one-element array (`Number([5]) = 5`)
is approximated by `NaN` as well — no claim exercises either. -/
def jsNumber : JVal → Option ℚ
  | .num q => some q
  | .str s => if s = "" then some 0 else Option.none
  | .boolV b => some (if b then 1 else 0)
  | .null => some 0
  | .undef => Option.none
  | .arrNil => some 0
  | .arrCons _ _ => Option.none

/-- A JS plain object with string keys: association list in insertion order
with unique keys maintained by `setKey`. -/
abbrev Props := List (String × JVal)

/-- One tabular data row. -/
abbrev Row := Props

/-- First binding of key `k` (JS property read; absent key reads `undefined`,
modelled as `Option.none`).  Maps keyed by non-string JS values coerce keys to
strings in JS; we key by the value itself, which agrees with the source
whenever distinct keys have distinct string forms (all claims). -/
def getKey {α β : Type} [DecidableEq α] (m : List (α × β)) (k : α) : Option β :=
  match m with
  | [] => Option.none
  | (k', v) :: rest => if k' = k then some v else getKey rest k

/-- JS property write `m[k] = v`: overwrites in place when the key exists,
appends otherwise (JS insertion-order semantics). -/
def setKey {α β : Type} [DecidableEq α] (m : List (α × β)) (k : α) (v : β) :
    List (α × β) :=
  if m.any (fun p => decide (p.1 = k)) then
    m.map (fun p => if p.1 = k then (k, v) else p)
  else m ++ [(k, v)]

/-- JS object spread `{...a, ...b}` for flat objects. -/
def mergeProps (a b : Props) : Props :=
  b.foldl (fun acc kv => setKey acc kv.1 kv.2) a

/-- A 2D coordinate `[x, y]`. -/
abbrev Point := ℚ × ℚ

/-- A polygon ring: list of coordinates. -/
abbrev GeoRing := List Point

/-- GeoJSON geometry as consumed by the engine.  `otherGeom` stands for any
geometry type other than `Polygon`/`MultiPolygon` (the source's default
branches); its coordinates never participate in the modelled claims. -/
inductive Geometry where
  | polygon (coordinates : List GeoRing)
  | multiPolygon (coordinates : List (List GeoRing))
  | otherGeom
  deriving DecidableEq, Repr

/-- A GeoJSON feature (`type: "Feature"` tag omitted; `geometry` may be
`null`/absent, both modelled as `Option.none`). -/
structure Feature where
  fid : Option JVal := Option.none
  properties : Props := []
  geometry : Option Geometry := Option.none
  centroid : Option Point := Option.none
  deriving DecidableEq, Repr

/-- A GeoJSON feature collection (`type` tag omitted). -/
structure FC where
  features : List Feature
  deriving DecidableEq, Repr

/-! ## Ring interpolation engine (GeoMorpher module)

Shallow embedding of the module-level helpers of the `GeoMorpher` source file:
`clampFactor`, `ensureClosedRing`, `extractOuterRings`, `computeRingCentroid`,
`computeRingBounds`, `createPlaceholderRing`, `distanceSquared`,
`matchRingPairs`, `createRingInterpolator`, `createGeometryInterpolator`. -/

/-- `RING_VISIBILITY_EPSILON = 1e-3`. -/
def RING_VISIBILITY_EPSILON : ℚ := 1/1000

/-- `PLACEHOLDER_SCALE = 0.02`. -/
def PLACEHOLDER_SCALE : ℚ := 1/50

/-- `MIN_PLACEHOLDER_SIZE = 1e-4`. -/
def MIN_PLACEHOLDER_SIZE : ℚ := 1/10000

/-- `clampFactor`: clamps the morph factor into `[0,1]` (the source first
coerces non-finite input to `0`; all modelled rationals are finite). -/
def clampFactor (value : ℚ) : ℚ :=
  if value ≤ 0 then 0
  else if 1 ≤ value then 1
  else value

/-- `ensureClosedRing`: appends the first vertex when the ring is not closed.
The source's malformed-coordinate checks always pass on modelled values. -/
def ensureClosedRing : GeoRing → GeoRing
  | [] => []
  | p :: rest =>
    let last := (p :: rest).getLast (List.cons_ne_nil p rest)
    if p = last then p :: rest else p :: rest ++ [p]

/-- `extractOuterRings`: outer rings of a geometry.  A `Polygon` contributes
its first ring (force-closed, with no vertex-count filter); a `MultiPolygon`
contributes the closed first ring of each member polygon, filtered to length
`≥ 3`; anything else contributes nothing. -/
def extractOuterRings : Option Geometry → List GeoRing
  | Option.none => []
  | some (.polygon coordinates) =>
    match coordinates.head? with
    | some ring => [ensureClosedRing ring]
    | Option.none => []
  | some (.multiPolygon polygons) =>
    ((polygons.filterMap (fun polygon => polygon.head?)).map
      (fun ring => ensureClosedRing ring)).filter (fun ring => decide (3 ≤ ring.length))
  | some .otherGeom => []

/-- `computeRingCentroid`: arithmetic mean of the vertices ( `[0,0]` for an
empty ring; the finiteness filter of the source always passes). -/
def computeRingCentroid (ring : GeoRing) : Point :=
  match ring with
  | [] => (0, 0)
  | _ => ((ring.map Prod.fst).sum / ring.length, (ring.map Prod.snd).sum / ring.length)

/-- `computeRingBounds`: width and height of the bounding box (`0 × 0` for an
empty ring, matching the source's infinity check). -/
def computeRingBounds (ring : GeoRing) : ℚ × ℚ :=
  match ring with
  | [] => (0, 0)
  | p :: rest =>
    let xs := (p :: rest).map Prod.fst
    let ys := (p :: rest).map Prod.snd
    let minX := xs.foldl min p.1
    let maxX := xs.foldl max p.1
    let minY := ys.foldl min p.2
    let maxY := ys.foldl max p.2
    (max (maxX - minX) 0, max (maxY - minY) 0)

/-- `createPlaceholderRing`: small square centred at the reference ring's
centroid, sized to 2% of the bounding-box span with an absolute minimum. -/
def createPlaceholderRing (referenceRing : GeoRing) : Option GeoRing :=
  match referenceRing with
  | [] => Option.none
  | _ =>
    let c := computeRingCentroid referenceRing
    let wh := computeRingBounds referenceRing
    let span := max wh.1 wh.2
    let offset := max (span * PLACEHOLDER_SCALE) MIN_PLACEHOLDER_SIZE
    some (ensureClosedRing
      [(c.1 - offset, c.2 - offset), (c.1 + offset, c.2 - offset),
       (c.1 + offset, c.2 + offset), (c.1 - offset, c.2 + offset)])

/-- `distanceSquared` between two points (the malformed-coordinate branch of
the source never fires on modelled values). -/
def distanceSquared (a b : Point) : ℚ :=
  (a.1 - b.1) * (a.1 - b.1) + (a.2 - b.2) * (a.2 - b.2)

/-- Inner loop of the greedy matcher: index of the first strictly smallest
distance, scanning left to right (the source's `<` against the running best,
which starts at `Infinity`, so the first element always becomes the best). -/
def scanBestGo : List ℚ → Nat → Nat → ℚ → Nat
  | [], _, bestIndex, _ => bestIndex
  | d :: rest, i, bestIndex, bestDistance =>
    if d < bestDistance then scanBestGo rest (i + 1) i d
    else scanBestGo rest (i + 1) bestIndex bestDistance

/-- Index of the first minimum of a distance list (`-1`, i.e. `Option.none`,
for an empty pool). -/
def scanBest : List ℚ → Option Nat
  | [] => Option.none
  | d :: rest => some (scanBestGo rest 1 0 d)

/-- A from/to ring pair; at most one side is `Option.none`. -/
structure RingPair where
  fromRing : Option GeoRing
  toRing : Option GeoRing
  deriving DecidableEq, Repr

/-- Recursion of `matchRingPairs` over the remaining `fromRings`, with the
still-unclaimed `toRing` pool (ring with its precomputed centroid).  A chosen
candidate is spliced out of the pool; leftovers become `(null, toRing)`
pairs. -/
def matchGo : List GeoRing → List (GeoRing × Point) → List RingPair
  | [], toPool => toPool.map (fun entry => ⟨Option.none, some entry.1⟩)
  | ring :: rest, toPool =>
    let c := computeRingCentroid ring
    match scanBest (toPool.map (fun candidate => distanceSquared c candidate.2)) with
    | some i =>
      ⟨some ring, some ((toPool.getD i ([], (0, 0))).1)⟩ :: matchGo rest (toPool.eraseIdx i)
    | Option.none => ⟨some ring, Option.none⟩ :: matchGo rest toPool

/-- `matchRingPairs`: greedy nearest-centroid matching of `fromRings` against
`toRings`. -/
def matchRingPairs (fromRings toRings : List GeoRing) : List RingPair :=
  matchGo fromRings (toRings.map (fun ring => (ring, computeRingCentroid ring)))

/-- Index resampling of a ring to `n` vertices (vertex `i` reads position
`i * len / n`; the identity when `n = len`). -/
def resampleRing (ring : GeoRing) (n : Nat) : GeoRing :=
  (List.range n).map (fun i => ring.getD (i * ring.length / n) (0, 0))

/-- Linear blend of two points at parameter `t`. -/
def lerpPoint (t : ℚ) (a b : Point) : Point :=
  (a.1 + t * (b.1 - a.1), a.2 + t * (b.2 - a.2))

/-- Modelled from the spec: `flubber.interpolate(fromRing, toRing, {string:
false})` is an external dependency (the `flubber` package), not part of this
repository.  Per spec §4.4 it performs "shape-preserving vertex resampling
plus linear blend along the resampled boundary", and per spec §8 it is
endpoint-exact up to ring closure; the model makes the endpoints exact and
uses index resampling plus pointwise linear blend in between. -/
def flubberLerp (fromRing toRing : GeoRing) (t : ℚ) : GeoRing :=
  if t = 0 then fromRing
  else if t = 1 then toRing
  else
    let n := max fromRing.length toRing.length
    List.zipWith (lerpPoint t) (resampleRing fromRing n) (resampleRing toRing n)

/-- A per-ring interpolator: `{ interpolate(factor) -> ring, isVisible(factor)
-> bool }`. -/
structure RingInterpolator where
  interpolate : ℚ → GeoRing
  isVisible : ℚ → Bool

/-- `createRingInterpolator`: matched pairs blend `fromRing → toRing` and are
always visible; a `fromRing`-only pair blends toward its placeholder and is
visible only while `factor < 1 - ε`; a `toRing`-only pair is the mirror,
visible only while `factor > ε`; `(null, null)` yields no interpolator.
JS truthiness note: an *empty* ring is truthy in the source, so emptiness
plays no role in the branch selection — only `null` does, matching the
`Option` pattern match. -/
def createRingInterpolator : RingPair → Option RingInterpolator
  | ⟨some fromRing, some toRing⟩ =>
    some ⟨fun factor => flubberLerp fromRing toRing factor, fun _ => true⟩
  | ⟨some fromRing, Option.none⟩ =>
    match createPlaceholderRing fromRing with
    | Option.none =>
      let constantRing := ensureClosedRing fromRing
      some ⟨fun _ => constantRing,
            fun factor => decide (factor < 1 - RING_VISIBILITY_EPSILON)⟩
    | some placeholder =>
      some ⟨fun factor => flubberLerp fromRing placeholder factor,
            fun factor => decide (factor < 1 - RING_VISIBILITY_EPSILON)⟩
  | ⟨Option.none, some toRing⟩ =>
    match createPlaceholderRing toRing with
    | Option.none =>
      let constantRing := ensureClosedRing toRing
      some ⟨fun _ => constantRing,
            fun factor => decide (RING_VISIBILITY_EPSILON < factor)⟩
    | some placeholder =>
      some ⟨fun factor => flubberLerp placeholder toRing factor,
            fun factor => decide (RING_VISIBILITY_EPSILON < factor)⟩
  | ⟨Option.none, Option.none⟩ => Option.none

/-- Geometry type tag of a geometry interpolator. -/
inductive GeomType where
  | polygonT
  | multiPolygonT
  deriving DecidableEq, Repr

/-- The `coordinates` array returned by a geometry interpolator: a list of
rings for a `Polygon`, a list of single-ring polygons for a `MultiPolygon`. -/
inductive Coords where
  | polyCoords (coordinates : List GeoRing)
  | multiCoords (coordinates : List (List GeoRing))
  deriving DecidableEq, Repr

/-- `coordinates.length` emptiness test used by the engine accessor. -/
def Coords.isEmptyCoords : Coords → Bool
  | .polyCoords c => c.isEmpty
  | .multiCoords c => c.isEmpty

/-- All rings contained in a returned coordinates array. -/
def Coords.ringsOf : Coords → List GeoRing
  | .polyCoords c => c
  | .multiCoords c => c.flatten

/-- A per-region geometry interpolator (`type` tag plus `interpolate`). -/
structure GeometryInterpolator where
  gtype : GeomType
  interpolate : ℚ → Coords

/-- The ring interpolators built for a geometry pair (the `ringInterpolators`
local of `createGeometryInterpolator`; the source additionally filters out
entries without an `interpolate` function, which never occur here). -/
def ringInterpolatorsOf (fromGeometry toGeometry : Option Geometry) : List RingInterpolator :=
  (matchRingPairs (extractOuterRings fromGeometry) (extractOuterRings toGeometry)).filterMap
    createRingInterpolator

/-- `geometry?.type === "MultiPolygon"` test. -/
def isMultiPolygonType : Option Geometry → Bool
  | some (.multiPolygon _) => true
  | _ => false

/-- Body of the `interpolate` closure of `createGeometryInterpolator`: clamp
the factor, evaluate every visible ring interpolator, force-close the results,
prefer rings of length `≥ 4` (falling back to the raw list when none survive),
and package per the geometry type.  The source's `try`/`catch` around
`entry.interpolate` cannot fire in the total model. -/
def geometryInterpolateAt (gtype : GeomType) (ringInterpolators : List RingInterpolator)
    (rawFactor : ℚ) : Coords :=
  let factor := clampFactor rawFactor
  let rings := ringInterpolators.filterMap (fun entry =>
    if entry.isVisible factor then some (ensureClosedRing (entry.interpolate factor))
    else Option.none)
  let filteredRings := rings.filter (fun ring => decide (4 ≤ ring.length))
  let effectiveRings := if filteredRings.isEmpty then rings else filteredRings
  match gtype with
  | .polygonT =>
    Coords.polyCoords [(effectiveRings.find? (fun candidate => decide (4 ≤ candidate.length))).getD []]
  | .multiPolygonT =>
    let multiRings := effectiveRings.filter (fun ring => decide (4 ≤ ring.length))
    let ringsToUse := if multiRings.isEmpty then effectiveRings else multiRings
    Coords.multiCoords (ringsToUse.map (fun ring => [ring]))

/-- `createGeometryInterpolator`: `Option.none` when no side contributes any
ring; otherwise the geometry type is `Polygon` exactly when there is a single
ring interpolator and neither source geometry is a `MultiPolygon`. -/
def createGeometryInterpolator (fromGeometry toGeometry : Option Geometry) :
    Option GeometryInterpolator :=
  let fromRings := extractOuterRings fromGeometry
  let toRings := extractOuterRings toGeometry
  if fromRings.isEmpty && toRings.isEmpty then Option.none
  else
    let ringInterpolators := ringInterpolatorsOf fromGeometry toGeometry
    if ringInterpolators.isEmpty then Option.none
    else
      let geometryType :=
        if ringInterpolators.length = 1 && !isMultiPolygonType fromGeometry &&
            !isMultiPolygonType toGeometry
        then GeomType.polygonT else GeomType.multiPolygonT
      some ⟨geometryType, geometryInterpolateAt geometryType ringInterpolators⟩

/-! ## Enrichment and aggregation pipeline (`src/utils/enrichment.js`) -/

/-- Appends `item` to the group of `key`, creating the group if absent (the
`groups[key].push(item)` step of `groupByJoinColumn`). -/
def pushGroup (groups : List (JVal × List Row)) (key : JVal) (item : Row) :
    List (JVal × List Row) :=
  match getKey groups key with
  | some existing => setKey groups key (existing ++ [item])
  | Option.none => groups ++ [(key, [item])]

/-- `groupByJoinColumn`: groups data rows by the value of `joinColumn`,
skipping rows whose key is falsy. -/
def groupByJoinColumn (data : List Row) (joinColumn : String) : List (JVal × List Row) :=
  data.foldl (fun groups item =>
    match getKey item joinColumn with
    | Option.none => groups
    | some key => if key.truthy then pushGroup groups key item else groups) []

/-- First-occurrence deduplication (`Array.from(new Set(...))` / `new
Set(...).size`). -/
def firstDedup {α : Type} [DecidableEq α] (l : List α) : List α :=
  l.foldl (fun acc v => if acc.contains v then acc else acc ++ [v]) []

/-- Encodes a Lean list as a modelled JS array value. -/
def JVal.ofList : List JVal → JVal :=
  fun l => l.foldr JVal.arrCons JVal.arrNil

/-- String form of a value in a template literal, used for the synthesized
`{column}_{value}` keys of the `categories` statistic.  JS number formatting
is approximated by `Rat.toString`; no claim depends on the exact key text. -/
def jvalKeyString : JVal → String
  | .num q => toString q
  | .str s => s
  | .boolV b => if b then "true" else "false"
  | .null => "null"
  | .undef => "undefined"
  | .arrNil => ""
  | .arrCons _ _ => "array"

/-- The non-null/non-undefined/non-empty-string values of one column across a
group (`columnValues` of `aggregateGroup`). -/
def collectColumnValues (values : List Row) (column : String) : List JVal :=
  (values.map (fun item => (getKey item column).getD JVal.undef)).filter
    (fun v => !(v == JVal.null) && !(v == JVal.undef) && !(v == JVal.str ""))

/-- Numeric-coercible values of a column (`.map(Number).filter(Number.isFinite)`). -/
def numericCoerced (columnValues : List JVal) : List ℚ :=
  columnValues.filterMap jsNumber

/-- Fold of the `categories` statistic: one running count per distinct value,
keyed `{column}_{value}`. -/
def categoriesFold (result : Props) (column : String) (columnValues : List JVal) : Props :=
  columnValues.foldl (fun acc value =>
    let key := column ++ "_" ++ jvalKeyString value
    let prev : ℚ := match getKey acc key with
      | some (JVal.num n) => n
      | _ => 0
    setKey acc key (JVal.num (prev + 1))) result

/-- One `switch` arm of `aggregateGroup` for a single column; unrecognized
statistic kinds fall through to the unchanged result. -/
def aggregateColumn (result : Props) (values : List Row) (column kind : String) : Props :=
  let columnValues := collectColumnValues values column
  if columnValues.isEmpty then result
  else if kind = "sum" then
    setKey result column
      (JVal.num (columnValues.foldl (fun s v => s + (jsNumber v).getD 0) 0))
  else if kind = "mean" then
    let numericValues := numericCoerced columnValues
    match numericValues with
    | [] => result
    | _ => setKey result column (JVal.num (numericValues.sum / numericValues.length))
  else if kind = "count" then
    setKey result column (JVal.num columnValues.length)
  else if kind = "unique_count" then
    setKey result column (JVal.num (firstDedup columnValues).length)
  else if kind = "array" then
    setKey result column (JVal.ofList (firstDedup columnValues))
  else if kind = "categories" then
    categoriesFold result column columnValues
  else if kind = "min" then
    match numericCoerced columnValues with
    | [] => result
    | q :: qs => setKey result column (JVal.num (qs.foldl min q))
  else if kind = "max" then
    match numericCoerced columnValues with
    | [] => result
    | q :: qs => setKey result column (JVal.num (qs.foldl max q))
  else result

/-- `aggregateGroup`: fold the aggregation spec (in insertion order) over one
group's rows. -/
def aggregateGroup (values : List Row) (aggregations : List (String × String)) : Props :=
  aggregations.foldl (fun result kv => aggregateColumn result values kv.1 kv.2) []

/-- The keys carrying at least one finite numeric value across the aggregated
map, in first-appearance order (the `numericKeys` set). -/
def numericKeysOf (aggregated : List (JVal × Props)) : List String :=
  firstDedup ((aggregated.map (fun rv => rv.2.filterMap (fun kv =>
    match kv.2 with
    | JVal.num _ => some kv.1
    | _ => Option.none))).flatten)

/-- The finite numeric values stored under `key` across the aggregated map
(the per-key list whose min/max feed `ranges`). -/
def numValuesAt (aggregated : List (JVal × Props)) (key : String) : List ℚ :=
  aggregated.filterMap (fun rv =>
    match getKey rv.2 key with
    | some (JVal.num q) => some q
    | _ => Option.none)

/-- `Math.min(...l)` for a nonempty list (`0` for the empty list, which the
source never reaches because only keys of `numericKeys` are queried). -/
def listMinD : List ℚ → ℚ
  | [] => 0
  | x :: xs => xs.foldl min x

/-- `Math.max(...l)` for a nonempty list (`0` for the empty list). -/
def listMaxD : List ℚ → ℚ
  | [] => 0
  | x :: xs => xs.foldl max x

/-- Pointwise step of `normalizeAggregatedData`: a finite numeric value
stored under a key of `numericKeys` is min-max normalized, with a constant
column mapped to `0.5`; any other value passes through. -/
def normValue (numericKeys : List String) (aggregated : List (JVal × Props))
    (k : String) (v : JVal) : JVal :=
  match v with
  | JVal.num q =>
    if numericKeys.contains k then
      let mn := listMinD (numValuesAt aggregated k)
      let mx := listMaxD (numValuesAt aggregated k)
      JVal.num (if mn = mx then 1/2 else (q - mn) / (mx - mn))
    else JVal.num q
  | v => v

/-- Per-region step of `normalizeAggregatedData` (the JS loop writes
`normalized[key]` for every numeric key whose value is finite, which is
exactly the pointwise rewrite of every numeric binding). -/
def normalizeProps (numericKeys : List String) (aggregated : List (JVal × Props))
    (values : Props) : Props :=
  values.map (fun kv => (kv.1, normValue numericKeys aggregated kv.1 kv.2))

/-- `normalizeAggregatedData`. -/
def normalizeAggregatedData (aggregated : List (JVal × Props)) : List (JVal × Props) :=
  let numericKeys := numericKeysOf aggregated
  aggregated.map (fun rv => (rv.1, normalizeProps numericKeys aggregated rv.2))

/-- The `aggregated` map of `enrichGeoData`: one aggregated property set per
join key. -/
def aggregatedOf (data : List Row) (joinColumn : String)
    (aggregations : List (String × String)) : List (JVal × Props) :=
  (groupByJoinColumn data joinColumn).map (fun g => (g.1, aggregateGroup g.2 aggregations))

/-- The per-feature merge step of `enrichGeoData`: a feature with a falsy or
absent join value, or with no aggregated entry for it, passes through
unchanged; otherwise the aggregated properties are spread over its own. -/
def enrichFeature (finalAggregated : List (JVal × Props)) (geoJSONJoinColumn : String)
    (feature : Feature) : Feature :=
  match getKey feature.properties geoJSONJoinColumn with
  | Option.none => feature
  | some joinValue =>
    if !joinValue.truthy then feature
    else
      match getKey finalAggregated joinValue with
      | Option.none => feature
      | some extra => { feature with properties := mergeProps feature.properties extra }

/-- The aggregated map actually merged by `enrichGeoData` (after the optional
normalization). -/
def finalAggregatedOf (data : List Row) (joinColumn : String)
    (aggregations : List (String × String)) (normalize : Bool) : List (JVal × Props) :=
  if normalize then normalizeAggregatedData (aggregatedOf data joinColumn aggregations)
  else aggregatedOf data joinColumn aggregations

/-- `enrichGeoData`: joins aggregated (optionally normalized) row data onto
features by the geometry-side join property.  `cloneDeep` is the identity on
the value model. -/
def enrichGeoData (data : List Row) (geojson : FC) (joinColumn geoJSONJoinColumn : String)
    (aggregations : List (String × String)) (normalize : Bool) : FC :=
  if data.isEmpty then geojson
  else if geojson.features.isEmpty then geojson
  else
    ⟨geojson.features.map
      (enrichFeature (finalAggregatedOf data joinColumn aggregations normalize)
        geoJSONJoinColumn)⟩

/-- `createLookup`: keyed lookup over features, skipping falsy keys, later
features overwriting earlier ones at the same key. -/
def createLookup (features : List Feature) (keyAccessor : Feature → Option JVal) :
    List (JVal × Feature) :=
  features.foldl (fun acc feature =>
    match keyAccessor feature with
    | Option.none => acc
    | some key => if key.truthy then setKey acc key feature else acc) []

/-! ## Projection (`src/utils/projection.js`)

The engine projects through `toWGS84FeatureCollection(fc, projection)`, which
deep-clones the collection and rewrites every coordinate through
`projection.toGeo`.  The projection is the caller-supplied capability of spec
§4.1; the default OSGB instance (`src/lib/osgb`) is not modelled — the model
takes the resolved projection function, which may fail (a JS `toGeo` may
throw). -/

/-- A pluggable projection: `toGeo([x,y]) -> [lng,lat]`, possibly throwing. -/
abbrev Projection := Point → Except String Point

/-- Projects every coordinate of a ring. -/
def projectRing (proj : Projection) (ring : GeoRing) : Except String GeoRing :=
  ring.mapM proj

/-- Projects every coordinate of a geometry (`turf.coordEach` rewrite). -/
def projectGeometry (proj : Projection) : Geometry → Except String Geometry
  | .polygon rings => do
    pure (Geometry.polygon (← rings.mapM (projectRing proj)))
  | .multiPolygon polys => do
    pure (Geometry.multiPolygon (← polys.mapM (fun poly => poly.mapM (projectRing proj))))
  | .otherGeom => pure Geometry.otherGeom

/-- `toWGS84FeatureCollection` on a feature collection input (the engine only
passes collections; the bare-feature/geometry wrapping branches are not
reached from the engine). -/
def toWGS84FeatureCollection (fc : FC) (proj : Projection) : Except String FC := do
  let features ← fc.features.mapM (fun feature =>
    match feature.geometry with
    | Option.none => pure feature
    | some g => do
      pure { feature with geometry := some (← projectGeometry proj g) })
  pure ⟨features⟩

/-! ## Cartogram normalizer (`src/utils/cartogram.js`) -/

/-- A JS number as seen by `Number.isFinite` guards: finite or not
(`NaN`/`±Infinity`/non-numbers all behave alike in the guarded positions). -/
inductive JSNumber where
  | fin (q : ℚ)
  | nonFinite
  deriving DecidableEq, Repr

/-- `clamp01`: coerces the cell padding into `[0, 0.49]`; non-finite input
(including non-numbers) becomes `0`. -/
def clamp01 (value : JSNumber) : ℚ :=
  match value with
  | .nonFinite => 0
  | .fin v => if v < 0 then 0 else if v > 49/100 then 49/100 else v

/-- The caller-supplied `gridOptions` object: absent fields fall back to the
defaults during the spread merge of `normalizeOptions`. -/
structure GridOverrides where
  rowField : Option String := Option.none
  colField : Option String := Option.none
  idField : Option String := Option.none
  includeSourceProperties : Option Bool := Option.none
  cellPadding : Option JSNumber := Option.none
  rowOrientation : Option String := Option.none
  colOrientation : Option String := Option.none
  extent : Option (JSNumber × JSNumber × JSNumber × JSNumber) := Option.none
  propertyMapper : Option (Row → JVal → ℚ → ℚ → Props) := Option.none

/-- The normalized grid options after `normalizeOptions`. -/
structure GridOptions where
  rowField : String
  colField : String
  idField : String
  includeSourceProperties : Bool
  cellPadding : ℚ
  rowOrientation : String
  colOrientation : String
  extent : Option (JSNumber × JSNumber × JSNumber × JSNumber)
  propertyMapper : Option (Row → JVal → ℚ → ℚ → Props)

/-- `normalizeOptions`: merge defaults (`idField` seeded from the join
property) with overrides, reset out-of-set orientations to `"top"`/`"left"`,
and clamp the cell padding. -/
def normalizeOptions (joinProperty : Option String) (overrides : GridOverrides) : GridOptions :=
  let mergedRowOrientation := overrides.rowOrientation.getD "top"
  let mergedColOrientation := overrides.colOrientation.getD "left"
  let mergedCellPadding := overrides.cellPadding.getD (JSNumber.fin (2/25))
  { rowField := overrides.rowField.getD "row"
    colField := overrides.colField.getD "col"
    idField := overrides.idField.getD (joinProperty.getD "id")
    includeSourceProperties := overrides.includeSourceProperties.getD true
    cellPadding := clamp01 mergedCellPadding
    rowOrientation :=
      if mergedRowOrientation = "top" ∨ mergedRowOrientation = "bottom"
      then mergedRowOrientation else "top"
    colOrientation :=
      if mergedColOrientation = "left" ∨ mergedColOrientation = "right"
      then mergedColOrientation else "left"
    extent := overrides.extent
    propertyMapper := overrides.propertyMapper }

/-- All coordinates of a geometry (for the bounding box). -/
def geometryCoords : Geometry → List Point
  | .polygon rings => rings.flatten
  | .multiPolygon polys => (polys.map List.flatten).flatten
  | .otherGeom => []

/-- Modelled from `turf.bbox` (external): `[minX, minY, maxX, maxY]` over all
coordinates, `Option.none` when there are none (JS yields infinities there,
which the caller's finiteness check rejects). -/
def turfBbox (fc : FC) : Option (ℚ × ℚ × ℚ × ℚ) :=
  let coords := (fc.features.map (fun f => ((f.geometry.map geometryCoords).getD []))).flatten
  match coords with
  | [] => Option.none
  | p :: rest =>
    some ((rest.map Prod.fst).foldl min p.1, (rest.map Prod.snd).foldl min p.2,
          (rest.map Prod.fst).foldl max p.1, (rest.map Prod.snd).foldl max p.2)

/-- `ensureExtent`: a fully finite explicit 4-entry extent wins; otherwise the
regular geography's bounding box; otherwise a configuration error. -/
def ensureExtent (extent : Option (JSNumber × JSNumber × JSNumber × JSNumber))
    (regularGeoJSON : Option FC) : Except String (ℚ × ℚ × ℚ × ℚ) :=
  match extent with
  | some (.fin a, .fin b, .fin c, .fin d) => Except.ok (a, b, c, d)
  | _ =>
    match regularGeoJSON with
    | some fc =>
      match turfBbox fc with
      | some bounds => Except.ok bounds
      | Option.none => Except.error "Unable to determine extent for grid cartogram."
    | Option.none => Except.error "Unable to determine extent for grid cartogram."

/-- One normalized grid record. -/
structure GridEntry where
  id : JVal
  row : ℚ
  col : ℚ
  source : Row
  deriving DecidableEq, Repr

/-- `normalizeRecords`: fails on an empty record set, a missing/empty
identifier, or non-numeric row/col values. -/
def normalizeRecords (records : List Row) (options : GridOptions) :
    Except String (List GridEntry) :=
  if records.isEmpty then Except.error "Grid cartogram input is empty"
  else
    records.mapM (fun record =>
      let idValue := getKey record options.idField
      match idValue with
      | Option.none => Except.error "Grid cartogram row is missing identifier column"
      | some idv =>
        if idv = JVal.null ∨ idv = JVal.str "" then
          Except.error "Grid cartogram row is missing identifier column"
        else
          match jsNumber ((getKey record options.rowField).getD JVal.undef),
                jsNumber ((getKey record options.colField).getD JVal.undef) with
          | some row, some col =>
            Except.ok { id := idv, row := row, col := col, source := record }
          | _, _ =>
            Except.error "Grid cartogram row must contain numeric row and col values")

/-- The observed row/column range of the grid. -/
structure GridMetrics where
  minRow : ℚ
  maxRow : ℚ
  minCol : ℚ
  maxCol : ℚ
  rowCount : ℚ
  colCount : ℚ
  deriving DecidableEq, Repr

/-- `deriveGridMetrics` (the empty-entry case yields the non-finite-range
error of the source). -/
def deriveGridMetrics (entries : List GridEntry) : Except String GridMetrics :=
  match entries with
  | [] => Except.error "Invalid row/column range detected in grid cartogram input"
  | e :: rest =>
    let rows := (e :: rest).map GridEntry.row
    let cols := (e :: rest).map GridEntry.col
    let minRow := rows.foldl min e.row
    let maxRow := rows.foldl max e.row
    let minCol := cols.foldl min e.col
    let maxCol := cols.foldl max e.col
    let rowCount := maxRow - minRow + 1
    let colCount := maxCol - minCol + 1
    if rowCount ≤ 0 ∨ colCount ≤ 0 then
      Except.error "Invalid row/column range detected in grid cartogram input"
    else
      Except.ok { minRow := minRow, maxRow := maxRow, minCol := minCol, maxCol := maxCol,
                  rowCount := rowCount, colCount := colCount }

/-- The axis-aligned bounds of one grid cell. -/
structure CellBounds where
  x0 : ℚ
  x1 : ℚ
  y0 : ℚ
  y1 : ℚ
  deriving DecidableEq, Repr

/-- `computeCellBounds`: place the entry's cell inside the extent per the
orientation options, removing `cellPadding` of each cell dimension
symmetrically. -/
def computeCellBounds (entry : GridEntry) (metrics : GridMetrics)
    (extent : ℚ × ℚ × ℚ × ℚ) (options : GridOptions) : CellBounds :=
  let minX := extent.1
  let minY := extent.2.1
  let maxX := extent.2.2.1
  let maxY := extent.2.2.2
  let width := maxX - minX
  let height := maxY - minY
  let cellWidth := width / metrics.colCount
  let cellHeight := height / metrics.rowCount
  let padX := cellWidth * options.cellPadding
  let padY := cellHeight * options.cellPadding
  let innerWidth := cellWidth - padX
  let innerHeight := cellHeight - padY
  let colIndex := entry.col - metrics.minCol
  let rowIndex := entry.row - metrics.minRow
  if options.colOrientation = "left" then
    let x0 := minX + colIndex * cellWidth + padX / 2
    let x1 := x0 + innerWidth
    if options.rowOrientation = "top" then
      let y1 := maxY - rowIndex * cellHeight - padY / 2
      let y0 := y1 - innerHeight
      { x0 := x0, x1 := x1, y0 := y0, y1 := y1 }
    else
      let y0 := minY + rowIndex * cellHeight + padY / 2
      let y1 := y0 + innerHeight
      { x0 := x0, x1 := x1, y0 := y0, y1 := y1 }
  else
    let x1 := maxX - colIndex * cellWidth - padX / 2
    let x0 := x1 - innerWidth
    if options.rowOrientation = "top" then
      let y1 := maxY - rowIndex * cellHeight - padY / 2
      let y0 := y1 - innerHeight
      { x0 := x0, x1 := x1, y0 := y0, y1 := y1 }
    else
      let y0 := minY + rowIndex * cellHeight + padY / 2
      let y1 := y0 + innerHeight
      { x0 := x0, x1 := x1, y0 := y0, y1 := y1 }

/-- The closed 4-corner square ring of a cell. -/
def cellRing (bounds : CellBounds) : GeoRing :=
  [(bounds.x0, bounds.y0), (bounds.x1, bounds.y0), (bounds.x1, bounds.y1),
   (bounds.x0, bounds.y1), (bounds.x0, bounds.y0)]

/-- `createSquareFeature` (the `turf.polygon` validation always passes on the
closed 5-vertex square ring). -/
def createSquareFeature (entry : GridEntry) (bounds : CellBounds) (joinProperty : String)
    (options : GridOptions) : Feature :=
  let ring := cellRing bounds
  let baseProperties := if options.includeSourceProperties then entry.source else []
  let properties :=
    setKey (setKey (setKey baseProperties joinProperty entry.id)
      "grid_row" (JVal.num entry.row)) "grid_col" (JVal.num entry.col)
  let properties :=
    match options.propertyMapper with
    | some mapper => mergeProps properties (mapper entry.source entry.id entry.row entry.col)
    | Option.none => properties
  { fid := some entry.id, properties := properties,
    geometry := some (Geometry.polygon [ring]), centroid := Option.none }

/-- `createGridCartogramFeatureCollection`. -/
def createGridCartogramFeatureCollection (records : List Row) (regularGeoJSON : Option FC)
    (joinProperty : String) (gridOptions : GridOverrides) : Except String FC := do
  let options := normalizeOptions (some joinProperty) gridOptions
  let extent ← ensureExtent options.extent regularGeoJSON
  let entries ← normalizeRecords records options
  let metrics ← deriveGridMetrics entries
  pure ⟨entries.map (fun entry =>
    createSquareFeature entry (computeCellBounds entry metrics extent options)
      joinProperty options)⟩

/-- The admissible cartogram inputs.  The delimited-text branch (`parseCSV`)
is not modelled: spec §1 scopes CSV tokenization out as an external
collaborator contract and no claim exercises it.  `badInput` stands for any
unsupported shape; `nullInput` for a missing input. -/
inductive CartogramInput where
  | geo (fc : FC)
  | rows (records : List Row)
  | wrapper (records : List Row)
  | nullInput
  | badInput

/-- `normalizeCartogramInput` (minus the CSV branch, see `CartogramInput`). -/
def normalizeCartogramInput (input : CartogramInput) (regularGeoJSON : Option FC)
    (joinProperty : String) (gridOptions : GridOverrides) : Except String FC :=
  match input with
  | .nullInput => Except.error "Cartogram input is required"
  | .geo fc => Except.ok fc
  | .rows records =>
    if records.isEmpty then Except.error "Cartogram input array is empty"
    else createGridCartogramFeatureCollection records regularGeoJSON joinProperty gridOptions
  | .wrapper records =>
    createGridCartogramFeatureCollection records regularGeoJSON joinProperty gridOptions
  | .badInput => Except.error "Unsupported cartogram input format"

/-! ## The `GeoMorpher` engine -/

/-- Modelled from `turf.centroid` (external): arithmetic mean over
`coordEach(..., excludeWrapCoord = true)`, which skips the closing vertex of
each ring.  An empty coordinate set yields `NaN` in JS, `(0,0)` here; no claim
depends on the centroid's value. -/
def turfCentroidCoords : Option Geometry → List Point
  | Option.none => []
  | some (.polygon rings) => (rings.map (fun r => r.dropLast)).flatten
  | some (.multiPolygon polys) =>
    ((polys.map (fun rings => (rings.map (fun r => r.dropLast)).flatten)).flatten)
  | some .otherGeom => []

/-- The centroid `turf.getCoord(turf.centroid(feature))`. -/
def turfCentroid (feature : Feature) : Point :=
  match turfCentroidCoords feature.geometry with
  | [] => (0, 0)
  | p :: rest =>
    (((p :: rest).map Prod.fst).sum / (p :: rest).length,
     ((p :: rest).map Prod.snd).sum / (p :: rest).length)

/-- `withCentroid`: spread of the feature with a computed `centroid`. -/
def withCentroid (feature : Feature) : Feature :=
  { feature with centroid := some (turfCentroid feature) }

/-- One entry of the `keyData` summary map.  `population` is
`Number(feature.properties?.population ?? 0)`; a `NaN` coercion is modelled as
`0` (no claim depends on the value). -/
structure KeyDatum where
  code : Option JVal
  population : ℚ
  data : Feature
  deriving DecidableEq, Repr

/-- `keyBy` of the summary rows by their `code` field (an absent join property
keys under `undefined`, modelled as the `Option.none` key). -/
def keyDataOf (regularEnriched : FC) (geoJSONJoinColumn : String) :
    List (Option JVal × KeyDatum) :=
  (regularEnriched.features.map (fun feature =>
    ({ code := getKey feature.properties geoJSONJoinColumn,
       population := ((getKey feature.properties "population").map
         (fun v => (jsNumber v).getD 0)).getD 0,
       data := feature } : KeyDatum))).foldl
    (fun acc datum => setKey acc datum.code datum) []

/-- The engine's mutable `state` record. -/
structure MorphState where
  prepared : Bool
  regularEnriched : Option FC
  cartogramEnriched : Option FC
  regularWGS84 : Option FC
  cartogramWGS84 : Option FC
  geographyLookup : List (JVal × Feature)
  cartogramLookup : List (JVal × Feature)
  keyData : List (Option JVal × KeyDatum)
  interpolators : List (JVal × GeometryInterpolator)

/-- The constructor's initial state. -/
def initialMorphState : MorphState :=
  { prepared := false, regularEnriched := Option.none, cartogramEnriched := Option.none,
    regularWGS84 := Option.none, cartogramWGS84 := Option.none,
    geographyLookup := [], cartogramLookup := [], keyData := [], interpolators := [] }

/-- The `GeoMorpher` instance: constructor configuration plus mutable fields.
`data`/`getData` model the inline rows and the async loader (whose call may
fail); `projection` is the resolved projection function (the OSGB default of
the source is an external library, so the model always takes the function
explicitly). -/
structure Engine where
  regularGeoJSON : FC
  cartogramGeoJSON : CartogramInput
  data : Option (List Row)
  getData : Option (Except String (List Row))
  joinColumn : String
  geoJSONJoinColumn : String
  aggregations : List (String × String)
  normalize : Bool
  projection : Projection
  cartogramGridOptions : GridOverrides
  normalizedCartogramGeoJSON : Option FC
  state : MorphState

/-- `loadData()`: inline rows win; otherwise the loader runs and its result is
memoized into `this.data`; otherwise `[]`. -/
def loadDataRun (e : Engine) : Engine × Except String (List Row) :=
  match e.data with
  | some rows => (e, Except.ok rows)
  | Option.none =>
    match e.getData with
    | some (Except.ok result) => ({ e with data := some result }, Except.ok result)
    | some (Except.error msg) => (e, Except.error msg)
    | Option.none => (e, Except.ok [])

/-- `ensureCartogramGeoJSON()`: memoized normalization of the cartogram
input.  On failure nothing is cached (the JS assignment happens only after
the call returns). -/
def ensureCartogramRun (e : Engine) : Engine × Except String FC :=
  match e.normalizedCartogramGeoJSON with
  | some fc => (e, Except.ok fc)
  | Option.none =>
    match normalizeCartogramInput e.cartogramGeoJSON (some e.regularGeoJSON)
        e.geoJSONJoinColumn e.cartogramGridOptions with
    | Except.ok fc => ({ e with normalizedCartogramGeoJSON := some fc }, Except.ok fc)
    | Except.error msg => (e, Except.error msg)

/-- The `interpolators` loop of `prepare()`: one geometry interpolator per
regular-geography key with a usable geometry pair. -/
def buildInterpolators (geographyLookup cartogramLookup : List (JVal × Feature)) :
    List (JVal × GeometryInterpolator) :=
  geographyLookup.foldl (fun acc entry =>
    let cartogramFeature := getKey cartogramLookup entry.1
    match createGeometryInterpolator entry.2.geometry
        (cartogramFeature.bind Feature.geometry) with
    | Option.none => acc
    | some geometryInterpolator => setKey acc entry.1 geometryInterpolator) []

/-- Final phase of `prepare()` after enrichment: project both enriched
collections, build lookups, key data and interpolators, and only then
overwrite `this.state` in a single assignment.  (The `prepare()` body is
split into staged functions with identical control flow.) -/
def prepareFinish (e2 : Engine) (regularEnriched cartogramEnriched : FC) :
    Engine × Option String :=
  match toWGS84FeatureCollection regularEnriched e2.projection with
  | Except.error msg => (e2, some msg)
  | Except.ok regularWGS84 =>
    match toWGS84FeatureCollection cartogramEnriched e2.projection with
    | Except.error msg => (e2, some msg)
    | Except.ok cartogramWGS84 =>
      let geographyLookup := createLookup regularWGS84.features
        (fun feature => getKey feature.properties e2.geoJSONJoinColumn)
      let cartogramLookup := createLookup cartogramWGS84.features
        (fun feature => getKey feature.properties e2.geoJSONJoinColumn)
      let keyData := keyDataOf regularEnriched e2.geoJSONJoinColumn
      let interpolators := buildInterpolators geographyLookup cartogramLookup
      ({ e2 with state :=
          { prepared := true,
            regularEnriched := some regularEnriched,
            cartogramEnriched := some cartogramEnriched,
            regularWGS84 := some ⟨regularWGS84.features.map withCentroid⟩,
            cartogramWGS84 := some ⟨cartogramWGS84.features.map withCentroid⟩,
            geographyLookup := geographyLookup.map (fun p => (p.1, withCentroid p.2)),
            cartogramLookup := cartogramLookup.map (fun p => (p.1, withCentroid p.2)),
            keyData := keyData,
            interpolators := interpolators } }, Option.none)

/-- `prepare()` after the data load: enrich the regular geography, normalize
and enrich the cartogram, then continue with `prepareFinish`. -/
def prepareWithData (e1 : Engine) (modelData : List Row) : Engine × Option String :=
  match ensureCartogramRun e1 with
  | (e2, Except.error msg) => (e2, some msg)
  | (e2, Except.ok baseCartogramGeoJSON) =>
    prepareFinish e2
      (enrichGeoData modelData e1.regularGeoJSON e1.joinColumn e1.geoJSONJoinColumn
        e1.aggregations e1.normalize)
      (enrichGeoData modelData baseCartogramGeoJSON e2.joinColumn e2.geoJSONJoinColumn
        e2.aggregations e2.normalize)

/-- `prepare()`: load data (memoizing `this.data`), then run the enrichment,
normalization, projection and state-building pipeline.  The returned engine
carries whatever mutations happened before a failure (`this.data`,
`this._normalizedCartogramGeoJSON`); the second component is the thrown
error, if any. -/
def prepareRun (e : Engine) : Engine × Option String :=
  match loadDataRun e with
  | (e1, Except.error msg) => (e1, some msg)
  | (e1, Except.ok modelData) => prepareWithData e1 modelData

/-- The "not prepared" usage error. -/
def NOT_PREPARED : String := "GeoMorpher.prepare() must be called before accessing data"

/-- `getKeyData()` — note: the source returns the cached map itself, without
`cloneDeep` (this is invisible in the value model; see the object-identity
model below). -/
def getKeyDataE (e : Engine) : Except String (List (Option JVal × KeyDatum)) :=
  if e.state.prepared then Except.ok e.state.keyData else Except.error NOT_PREPARED

/-- `getRegularFeatureCollection()`. -/
def getRegularFeatureCollectionE (e : Engine) : Except String (Option FC) :=
  if e.state.prepared then Except.ok e.state.regularWGS84 else Except.error NOT_PREPARED

/-- `getCartogramFeatureCollection()`. -/
def getCartogramFeatureCollectionE (e : Engine) : Except String (Option FC) :=
  if e.state.prepared then Except.ok e.state.cartogramWGS84 else Except.error NOT_PREPARED

/-- `getGeographyLookup()`. -/
def getGeographyLookupE (e : Engine) : Except String (List (JVal × Feature)) :=
  if e.state.prepared then Except.ok e.state.geographyLookup else Except.error NOT_PREPARED

/-- `getCartogramLookup()`. -/
def getCartogramLookupE (e : Engine) : Except String (List (JVal × Feature)) :=
  if e.state.prepared then Except.ok e.state.cartogramLookup else Except.error NOT_PREPARED

/-- The feature built for one interpolator entry by
`getInterpolatedFeatureCollection`, when the interpolated coordinates are
non-empty and the base feature exists. -/
def interpolatedFeature (st : MorphState) (factor : ℚ) (entry : JVal × GeometryInterpolator) :
    Option Feature :=
  match getKey st.geographyLookup entry.1 with
  | Option.none => Option.none
  | some baseFeature =>
    let coordinates := entry.2.interpolate factor
    if coordinates.isEmptyCoords then Option.none
    else
      let geometry :=
        match coordinates with
        | Coords.polyCoords c => Geometry.polygon c
        | Coords.multiCoords c => Geometry.multiPolygon c
      some (withCentroid
        { fid := Option.none,
          properties := setKey (setKey baseFeature.properties "code" entry.1)
            "morph_factor" (JVal.num factor),
          geometry := some geometry, centroid := Option.none })

/-- The interpolated collection over a prepared state (body of
`getInterpolatedFeatureCollection` after the prepared check).  A `Coords`
value carries the same tag the source reads from `entry.type`, so the
geometry tag selection is by the coordinates' own shape. -/
def interpolatedFC (st : MorphState) (factor : ℚ) : FC :=
  ⟨st.interpolators.filterMap (interpolatedFeature st factor)⟩

/-- `getInterpolatedFeatureCollection(factor)`. -/
def getInterpolatedFeatureCollectionE (e : Engine) (factor : ℚ) : Except String FC :=
  if e.state.prepared then Except.ok (interpolatedFC e.state factor)
  else Except.error NOT_PREPARED

/-- `getInterpolatedLookup(factor)`. -/
def getInterpolatedLookupE (e : Engine) (factor : ℚ) :
    Except String (List (JVal × Feature)) :=
  (getInterpolatedFeatureCollectionE e factor).map (fun fc =>
    createLookup fc.features (fun f => getKey f.properties e.geoJSONJoinColumn))

/-! ## Object-identity model for the defensive-copy claim

The pure value model above cannot distinguish `return this.state.keyData`
from `return cloneDeep(this.state.keyData)`.  This section models the JS
object graph with explicit object identities: every composite value carries
an id, `cloneDeep` re-ids the whole graph with fresh ids, and a mutation
rewrites the fields of the object with a given id wherever it occurs.
Arrays are modelled as objects keyed by index, primitives are identity-free.
The accessors are transcribed from the source: four accessors clone, while
`getKeyData` returns the cached object itself. -/

mutual
inductive HVal where
  | prim (s : String)
  | obj (id : Nat) (fields : HFields)
inductive HFields where
  | fnil
  | fcons (key : String) (value : HVal) (rest : HFields)
end

mutual
/-- Object ids occurring in a value. -/
def HVal.ids : HVal → List Nat
  | .prim _ => []
  | .obj i fields => i :: fields.idsF
/-- Object ids occurring in a field list. -/
def HFields.idsF : HFields → List Nat
  | .fnil => []
  | .fcons _ value rest => value.ids ++ rest.idsF
end

mutual
/-- `lodash.cloneDeep`: structural copy with fresh object ids, threading an
allocation counter. -/
def cloneDeep (c : Nat) : HVal → HVal × Nat
  | .prim s => (.prim s, c)
  | .obj _ fields =>
    let r := cloneFields (c + 1) fields
    (.obj c r.1, r.2)
/-- `cloneDeep` over a field list. -/
def cloneFields (c : Nat) : HFields → HFields × Nat
  | .fnil => (.fnil, c)
  | .fcons key value rest =>
    let rv := cloneDeep c value
    let rr := cloneFields rv.2 rest
    (.fcons key rv.1 rr.1, rr.2)
end

mutual
/-- An arbitrary caller mutation: replace the fields of the object whose id is
`tid`, wherever that object occurs in the graph. -/
def mutate (tid : Nat) (repl : HFields) : HVal → HVal
  | .prim s => .prim s
  | .obj i fields => if i = tid then .obj i repl else .obj i (mutateFields tid repl fields)
/-- `mutate` over a field list. -/
def mutateFields (tid : Nat) (repl : HFields) : HFields → HFields
  | .fnil => .fnil
  | .fcons key value rest => .fcons key (mutate tid repl value) (mutateFields tid repl rest)
end

mutual
inductive EVal where
  | eprim (s : String)
  | eobj (fields : EFields)
  deriving DecidableEq
inductive EFields where
  | enil
  | econs (key : String) (value : EVal) (rest : EFields)
  deriving DecidableEq
end

mutual
/-- Identity erasure: the JS *value* of an object graph, forgetting object
identities (what `assert.deepEqual` would compare). -/
def HVal.erase : HVal → EVal
  | .prim s => .eprim s
  | .obj _ fields => .eobj fields.eraseF
/-- Erasure of a field list. -/
def HFields.eraseF : HFields → EFields
  | .fnil => .enil
  | .fcons key value rest => .econs key value.erase rest.eraseF
end

/-- The prepared state as stored object graphs, with an allocation counter
dominating every stored id. -/
structure HState where
  regularWGS84 : HVal
  cartogramWGS84 : HVal
  geographyLookup : HVal
  cartogramLookup : HVal
  keyData : HVal
  counter : Nat

/-- Every id stored in the state. -/
def HState.storedIds (st : HState) : List Nat :=
  st.regularWGS84.ids ++ st.cartogramWGS84.ids ++ st.geographyLookup.ids ++
    st.cartogramLookup.ids ++ st.keyData.ids

/-- Well-formedness: the allocation counter dominates every stored id. -/
def HState.wf (st : HState) : Prop :=
  ∀ i ∈ st.storedIds, i < st.counter

/-- `getKeyData()`: returns the cached object itself (no `cloneDeep` in the
source). -/
def getKeyDataH (st : HState) : HVal × HState :=
  (st.keyData, st)

/-- `getRegularFeatureCollection()`: returns `cloneDeep` of the cache. -/
def getRegularFeatureCollectionH (st : HState) : HVal × HState :=
  let r := cloneDeep st.counter st.regularWGS84
  (r.1, { st with counter := r.2 })

/-- `getCartogramFeatureCollection()`. -/
def getCartogramFeatureCollectionH (st : HState) : HVal × HState :=
  let r := cloneDeep st.counter st.cartogramWGS84
  (r.1, { st with counter := r.2 })

/-- `getGeographyLookup()`. -/
def getGeographyLookupH (st : HState) : HVal × HState :=
  let r := cloneDeep st.counter st.geographyLookup
  (r.1, { st with counter := r.2 })

/-- `getCartogramLookup()`. -/
def getCartogramLookupH (st : HState) : HVal × HState :=
  let r := cloneDeep st.counter st.cartogramLookup
  (r.1, { st with counter := r.2 })

/-- A caller mutation applied to the shared object world: every stored graph
sees the rewrite of object `tid`. -/
def applyMutationState (tid : Nat) (repl : HFields) (st : HState) : HState :=
  { st with
    regularWGS84 := mutate tid repl st.regularWGS84,
    cartogramWGS84 := mutate tid repl st.cartogramWGS84,
    geographyLookup := mutate tid repl st.geographyLookup,
    cartogramLookup := mutate tid repl st.cartogramLookup,
    keyData := mutate tid repl st.keyData }

/-- The JS values (identity-erased) returned by the five accessors of this
model. -/
def eraseResults (st : HState) : EVal × EVal × EVal × EVal × EVal :=
  ((getRegularFeatureCollectionH st).1.erase,
   (getCartogramFeatureCollectionH st).1.erase,
   (getGeographyLookupH st).1.erase,
   (getCartogramLookupH st).1.erase,
   (getKeyDataH st).1.erase)

/-! ## Claim theorems -/

/-- C10: grid-option normalization never raises on out-of-range options: a
negative or non-finite `cellPadding` is coerced to `0`, a `cellPadding` above
`0.49` is coerced to `0.49`, and a `rowOrientation` outside
`{top, bottom}` (resp. `colOrientation` outside `{left, right}`) is silently
replaced by the default `"top"` (resp. `"left"`).  `normalizeOptions` is a
total function, so no option combination raises an error. -/
theorem C10_grid_option_normalization :
    (∀ (jp : Option String) (ov : GridOverrides) (q : ℚ),
        ov.cellPadding = some (JSNumber.fin q) → q < 0 →
        (normalizeOptions jp ov).cellPadding = 0)
    ∧ (∀ (jp : Option String) (ov : GridOverrides),
        ov.cellPadding = some JSNumber.nonFinite →
        (normalizeOptions jp ov).cellPadding = 0)
    ∧ (∀ (jp : Option String) (ov : GridOverrides) (q : ℚ),
        ov.cellPadding = some (JSNumber.fin q) → 49/100 < q →
        (normalizeOptions jp ov).cellPadding = 49/100)
    ∧ (∀ (jp : Option String) (ov : GridOverrides) (s : String),
        ov.rowOrientation = some s → s ≠ "top" → s ≠ "bottom" →
        (normalizeOptions jp ov).rowOrientation = "top")
    ∧ (∀ (jp : Option String) (ov : GridOverrides) (s : String),
        ov.colOrientation = some s → s ≠ "left" → s ≠ "right" →
        (normalizeOptions jp ov).colOrientation = "left") := by
  refine ⟨?_, ?_, ?_, ?_, ?_⟩
  · intro jp ov q h hq
    simp [normalizeOptions, h, clamp01, hq]
  · intro jp ov h
    simp [normalizeOptions, h, clamp01]
  · intro jp ov q h hq
    have hq0 : ¬ q < 0 := by linarith
    simp [normalizeOptions, h, clamp01, hq, hq0]
  · intro jp ov s h hs1 hs2
    simp [normalizeOptions, h, hs1, hs2]
  · intro jp ov s h hs1 hs2
    simp [normalizeOptions, h, hs1, hs2]

/-- Witness for C10 at a concrete override set. -/
theorem C10_grid_option_normalization_witness :
    (normalizeOptions (some "code")
      { cellPadding := some (JSNumber.fin (-1)), rowOrientation := some "sideways" }).cellPadding = 0 :=
  C10_grid_option_normalization.1 (some "code") _ (-1) rfl (by norm_num)

/-- A concrete closed square ring (the regular shape of region "B" in the
scenario engine below). -/
def sqRing : GeoRing := [(0, 0), (4, 0), (4, 4), (0, 4), (0, 0)]

/-- C5 counterexample: the claim says a disappear-case ring interpolator is
still visible at factor exactly `1 - ε`; the source uses a strict `<`, so the
ring is already hidden there. -/
theorem C5_counterexample :
    ((createRingInterpolator ⟨some sqRing, Option.none⟩).map
      (fun ri => ri.isVisible (1 - RING_VISIBILITY_EPSILON))) = some false := by
  cases hp : createPlaceholderRing sqRing with
  | none => simp [createRingInterpolator, hp]
  | some placeholder => simp [createRingInterpolator, hp]

/-- C5 (amended): for a `fromRing`-only pair the interpolator is visible
exactly when `factor < 1 - ε` (strictly; at `1 - ε` itself it is hidden); for
a `toRing`-only pair exactly when `factor > ε` (hidden at `ε` itself); for
matched pairs it is visible at every factor. -/
theorem C5_visibility_amended :
    (∀ (fr : GeoRing) (f : ℚ) (ri : RingInterpolator),
        createRingInterpolator ⟨some fr, Option.none⟩ = some ri →
        (ri.isVisible f = true ↔ f < 1 - RING_VISIBILITY_EPSILON))
    ∧ (∀ (tr : GeoRing) (f : ℚ) (ri : RingInterpolator),
        createRingInterpolator ⟨Option.none, some tr⟩ = some ri →
        (ri.isVisible f = true ↔ RING_VISIBILITY_EPSILON < f))
    ∧ (∀ (fr tr : GeoRing) (f : ℚ) (ri : RingInterpolator),
        createRingInterpolator ⟨some fr, some tr⟩ = some ri →
        ri.isVisible f = true) := by
  refine ⟨?_, ?_, ?_⟩
  · intro fr f ri h
    cases hp : createPlaceholderRing fr with
    | none =>
      simp [createRingInterpolator, hp] at h
      subst h
      simp
    | some placeholder =>
      simp [createRingInterpolator, hp] at h
      subst h
      simp
  · intro tr f ri h
    cases hp : createPlaceholderRing tr with
    | none =>
      simp [createRingInterpolator, hp] at h
      subst h
      simp
    | some placeholder =>
      simp [createRingInterpolator, hp] at h
      subst h
      simp
  · intro fr tr f ri h
    simp [createRingInterpolator] at h
    subst h
    simp

/-- Witness for C5 (amended) at the concrete square ring and factor `1/2`. -/
theorem C5_visibility_amended_witness :
    ((createRingInterpolator ⟨some sqRing, Option.none⟩).map
      (fun ri => ri.isVisible (1/2))) = some true := by
  rcases hcp : createRingInterpolator ⟨some sqRing, Option.none⟩ with _ | ri
  · cases hp : createPlaceholderRing sqRing <;> simp [createRingInterpolator, hp] at hcp
  · have h := (C5_visibility_amended.1 sqRing (1/2) ri hcp).mpr
      (by norm_num [RING_VISIBILITY_EPSILON])
    simpa using h

/-! ## Helper lemmas -/

theorem getKey_mem {α β : Type} [DecidableEq α] :
    ∀ {l : List (α × β)} {k : α} {v : β}, getKey l k = some v → (k, v) ∈ l := by
  intro l
  induction l with
  | nil => intro k v h; simp [getKey] at h
  | cons p rest ih =>
    intro k v h
    rw [getKey] at h
    by_cases hk : p.1 = k
    · rw [if_pos hk] at h
      have hv : p.2 = v := by injection h
      have hp : (k, v) = p := by
        cases p
        simp_all
      rw [hp]
      exact List.mem_cons_self _ _
    · rw [if_neg hk] at h
      exact List.mem_cons_of_mem _ (ih h)

theorem getKey_map_snd {α β γ : Type} [DecidableEq α] (t : α → β → γ) :
    ∀ (l : List (α × β)) (k : α),
      getKey (l.map (fun kv => (kv.1, t kv.1 kv.2))) k = (getKey l k).map (t k) := by
  intro l
  induction l with
  | nil => intro k; simp [getKey]
  | cons p rest ih =>
    intro k
    by_cases hk : p.1 = k
    · subst hk
      simp [getKey]
    · simp [getKey, hk, ih]

theorem mem_firstDedup {α : Type} [DecidableEq α] (l : List α) (x : α) :
    x ∈ firstDedup l ↔ x ∈ l := by
  have main : ∀ (l : List α) (acc : List α),
      x ∈ l.foldl (fun acc v => if acc.contains v then acc else acc ++ [v]) acc ↔
        x ∈ acc ∨ x ∈ l := by
    intro l
    induction l with
    | nil => intro acc; simp
    | cons a t ih =>
      intro acc
      by_cases ha : acc.contains a
      · have ha' : a ∈ acc := List.elem_iff.mp ha
        simp only [List.foldl_cons, if_pos ha, ih]
        constructor
        · rintro (h | h)
          · exact Or.inl h
          · exact Or.inr (List.mem_cons_of_mem _ h)
        · rintro (h | h)
          · exact Or.inl h
          · rcases List.mem_cons.mp h with h | h
            · exact Or.inl (h ▸ ha')
            · exact Or.inr h
      · simp only [List.foldl_cons, if_neg ha, ih, List.mem_append,
          List.mem_singleton, List.mem_cons]
        tauto
  have := main l []
  simp only [List.not_mem_nil, false_or] at this
  exact this

theorem foldl_min_le_init (l : List ℚ) : ∀ (x : ℚ), l.foldl min x ≤ x := by
  induction l with
  | nil => intro x; simp
  | cons a t ih =>
    intro x
    exact le_trans (ih (min x a)) (min_le_left _ _)

theorem foldl_min_le_mem (l : List ℚ) : ∀ (x y : ℚ), y ∈ l → l.foldl min x ≤ y := by
  induction l with
  | nil => intro x y hy; simp at hy
  | cons a t ih =>
    intro x y hy
    rcases List.mem_cons.mp hy with h | h
    · subst h
      exact le_trans (foldl_min_le_init t (min x y)) (min_le_right _ _)
    · exact ih (min x a) y h

theorem init_le_foldl_max (l : List ℚ) : ∀ (x : ℚ), x ≤ l.foldl max x := by
  induction l with
  | nil => intro x; simp
  | cons a t ih =>
    intro x
    exact le_trans (le_max_left _ _) (ih (max x a))

theorem mem_le_foldl_max (l : List ℚ) : ∀ (x y : ℚ), y ∈ l → y ≤ l.foldl max x := by
  induction l with
  | nil => intro x y hy; simp at hy
  | cons a t ih =>
    intro x y hy
    rcases List.mem_cons.mp hy with h | h
    · subst h
      exact le_trans (le_max_right _ _) (init_le_foldl_max t (max x y))
    · exact ih (max x a) y h

theorem listMinD_le {l : List ℚ} {y : ℚ} (hy : y ∈ l) : listMinD l ≤ y := by
  cases l with
  | nil => simp at hy
  | cons a t =>
    rcases List.mem_cons.mp hy with h | h
    · subst h
      exact foldl_min_le_init t y
    · exact foldl_min_le_mem t a y h

theorem le_listMaxD {l : List ℚ} {y : ℚ} (hy : y ∈ l) : y ≤ listMaxD l := by
  cases l with
  | nil => simp at hy
  | cons a t =>
    rcases List.mem_cons.mp hy with h | h
    · subst h
      exact init_le_foldl_max t y
    · exact mem_le_foldl_max t a y h

/-- The spec's concrete normalization example: values `[0, 1600, 800]` for one
column across three regions. -/
def aggExample : List (JVal × Props) :=
  [(JVal.str "A", [("pop", JVal.num 0)]),
   (JVal.str "B", [("pop", JVal.num 1600)]),
   (JVal.str "C", [("pop", JVal.num 800)])]

theorem mem_numValuesAt {agg : List (JVal × Props)} {code : JVal} {values : Props}
    {k : String} {q₀ : ℚ} (hmem : (code, values) ∈ agg)
    (hv : getKey values k = some (JVal.num q₀)) : q₀ ∈ numValuesAt agg k := by
  unfold numValuesAt
  exact List.mem_filterMap.mpr ⟨(code, values), hmem, by simp [hv]⟩

theorem mem_numericKeysOf {agg : List (JVal × Props)} {code : JVal} {values : Props}
    {k : String} {q₀ : ℚ} (hmem : (code, values) ∈ agg)
    (hv : getKey values k = some (JVal.num q₀)) : k ∈ numericKeysOf agg := by
  unfold numericKeysOf
  refine (mem_firstDedup _ _).mpr ?_
  refine List.mem_flatten.mpr ⟨values.filterMap (fun kv =>
    match kv.2 with
    | JVal.num _ => some kv.1
    | _ => Option.none), ?_, ?_⟩
  · exact List.mem_map.mpr ⟨(code, values), hmem, rfl⟩
  · exact List.mem_filterMap.mpr ⟨(k, JVal.num q₀), getKey_mem hv, rfl⟩

/-- C7: min-max normalization maps each numeric aggregated value `v` to
`(v - min)/(max - min)`, so every normalized numeric value lies in `[0, 1]`;
a constant column (`min = max`) maps every value to `0.5`; and for the column
values `[0, 1600, 800]` across three regions the post-normalize values are
`[0, 1, 0.5]`. -/
theorem C7_minmax_normalization :
    (∀ (agg : List (JVal × Props)) (code : JVal) (props : Props) (k : String) (q : ℚ),
        getKey (normalizeAggregatedData agg) code = some props →
        getKey props k = some (JVal.num q) →
        0 ≤ q ∧ q ≤ 1 ∧
          (listMinD (numValuesAt agg k) = listMaxD (numValuesAt agg k) → q = 1/2) ∧
          (∀ q₀ : ℚ,
            (getKey agg code).bind (fun values => getKey values k) = some (JVal.num q₀) →
            listMinD (numValuesAt agg k) ≠ listMaxD (numValuesAt agg k) →
            q = (q₀ - listMinD (numValuesAt agg k)) /
                (listMaxD (numValuesAt agg k) - listMinD (numValuesAt agg k))))
    ∧ normalizeAggregatedData aggExample =
        [(JVal.str "A", [("pop", JVal.num 0)]),
         (JVal.str "B", [("pop", JVal.num 1)]),
         (JVal.str "C", [("pop", JVal.num (1/2))])] := by
  constructor
  · intro agg code props k q h1 h2
    have hmap : getKey (normalizeAggregatedData agg) code =
        (getKey agg code).map (fun values => normalizeProps (numericKeysOf agg) agg values) := by
      unfold normalizeAggregatedData
      exact getKey_map_snd (fun _ values => normalizeProps (numericKeysOf agg) agg values) agg code
    rw [hmap] at h1
    rcases Option.map_eq_some'.mp h1 with ⟨values, hvals, hprops⟩
    subst hprops
    have hmap2 : getKey (normalizeProps (numericKeysOf agg) agg values) k =
        (getKey values k).map (normValue (numericKeysOf agg) agg k) := by
      unfold normalizeProps
      exact getKey_map_snd (normValue (numericKeysOf agg) agg) values k
    rw [hmap2] at h2
    rcases Option.map_eq_some'.mp h2 with ⟨v, hvk, hnv⟩
    cases v with
    | num q₀ =>
      have hmem : (code, values) ∈ agg := getKey_mem hvals
      have hq₀mem : q₀ ∈ numValuesAt agg k := mem_numValuesAt hmem hvk
      have hkmem : k ∈ numericKeysOf agg := mem_numericKeysOf hmem hvk
      have hcontains : (numericKeysOf agg).contains k = true := List.elem_iff.mpr hkmem
      rw [normValue, if_pos hcontains] at hnv
      have hmn : listMinD (numValuesAt agg k) ≤ q₀ := listMinD_le hq₀mem
      have hmx : q₀ ≤ listMaxD (numValuesAt agg k) := le_listMaxD hq₀mem
      have hq : q = if listMinD (numValuesAt agg k) = listMaxD (numValuesAt agg k)
          then 1/2
          else (q₀ - listMinD (numValuesAt agg k)) /
            (listMaxD (numValuesAt agg k) - listMinD (numValuesAt agg k)) := by
        injection hnv with hnv'
        exact hnv'.symm
      by_cases hc : listMinD (numValuesAt agg k) = listMaxD (numValuesAt agg k)
      · rw [if_pos hc] at hq
        subst hq
        refine ⟨by norm_num, by norm_num, fun _ => rfl, fun q₀' hbind hne => absurd hc hne⟩
      · rw [if_neg hc] at hq
        have hlt : listMinD (numValuesAt agg k) < listMaxD (numValuesAt agg k) :=
          lt_of_le_of_ne (le_trans hmn hmx) hc
        have hpos : (0:ℚ) < listMaxD (numValuesAt agg k) - listMinD (numValuesAt agg k) := by
          linarith
        refine ⟨?_, ?_, fun hcc => absurd hcc hc, ?_⟩
        · rw [hq]
          exact div_nonneg (by linarith) (le_of_lt hpos)
        · rw [hq]
          rw [div_le_one hpos]
          linarith
        · intro q₀' hbind hne
          rw [hvals] at hbind
          have hbind' : getKey values k = some (JVal.num q₀') := hbind
          rw [hvk] at hbind'
          have : q₀ = q₀' := by
            injection hbind' with hb
            injection hb
          rw [hq, this]
    | str s => exact JVal.noConfusion hnv
    | boolV b => exact JVal.noConfusion hnv
    | null => exact JVal.noConfusion hnv
    | undef => exact JVal.noConfusion hnv
    | arrNil => exact JVal.noConfusion hnv
    | arrCons hd tl => exact JVal.noConfusion hnv
  · simp [normalizeAggregatedData, aggExample, normalizeProps, normValue,
      numericKeysOf, numValuesAt, firstDedup, listMinD, listMaxD, getKey]
    norm_num

/-- Witness for C7 at the concrete example map: region "C"'s value `800`
normalizes into `[0,1]`. -/
theorem C7_minmax_normalization_witness :
    (0 : ℚ) ≤ 1/2 ∧
      ((getKey (normalizeAggregatedData aggExample) (JVal.str "C")).bind
        (fun props => getKey props "pop")) = some (JVal.num (1/2)) := by
  have hc := C7_minmax_normalization.2
  constructor
  · norm_num
  · rw [hc]
    simp [getKey]

/-- Membership of a point in the closed rectangle of a cell. -/
def inCell (b : CellBounds) (p : Point) : Prop :=
  b.x0 ≤ p.1 ∧ p.1 ≤ b.x1 ∧ b.y0 ≤ p.2 ∧ p.2 ≤ b.y1

theorem deriveGridMetrics_mem {entries : List GridEntry} {metrics : GridMetrics}
    (hm : deriveGridMetrics entries = Except.ok metrics) {e : GridEntry} (he : e ∈ entries) :
    metrics.minRow ≤ e.row ∧ e.row ≤ metrics.maxRow ∧
      metrics.minCol ≤ e.col ∧ e.col ≤ metrics.maxCol ∧
      metrics.rowCount = metrics.maxRow - metrics.minRow + 1 ∧
      metrics.colCount = metrics.maxCol - metrics.minCol + 1 := by
  cases entries with
  | nil => simp [deriveGridMetrics] at hm
  | cons e0 rest =>
    rw [deriveGridMetrics] at hm
    split at hm
    · exact absurd hm (by simp)
    · have hrow : e.row ∈ (e0 :: rest).map GridEntry.row :=
        List.mem_map_of_mem GridEntry.row he
      have hcol : e.col ∈ (e0 :: rest).map GridEntry.col :=
        List.mem_map_of_mem GridEntry.col he
      injection hm with hmetrics
      subst hmetrics
      refine ⟨foldl_min_le_mem _ _ _ hrow, mem_le_foldl_max _ _ _ hrow,
        foldl_min_le_mem _ _ _ hcol, mem_le_foldl_max _ _ _ hcol, rfl, rfl⟩

theorem axis_facts (lo hi idx cnt c pad : ℚ)
    (hcnt : 0 < cnt) (hc : c = (hi - lo) / cnt) (hidx0 : 0 ≤ idx) (hidx1 : idx + 1 ≤ cnt)
    (hlo : lo < hi) (hpad0 : 0 < pad) (hpad1 : pad ≤ 49/100) :
    0 < c ∧ 0 < c * pad ∧ c * pad ≤ c ∧ 0 ≤ idx * c ∧ idx * c + c ≤ cnt * c ∧
      cnt * c = hi - lo := by
  have hcpos : 0 < c := by
    rw [hc]
    exact div_pos (by linarith) hcnt
  refine ⟨hcpos, mul_pos hcpos hpad0, ?_, mul_nonneg hidx0 (le_of_lt hcpos), ?_, ?_⟩
  · have h1 : c * pad ≤ c * (49/100) := mul_le_mul_of_nonneg_left hpad1 (le_of_lt hcpos)
    nlinarith
  · have h2 : (idx + 1) * c ≤ cnt * c := mul_le_mul_of_nonneg_right hidx1 (le_of_lt hcpos)
    nlinarith
  · rw [hc]
    field_simp

set_option maxHeartbeats 1000000 in
/-- C8: for every grid built over finite numeric row/col records, an extent
with positive width and height, and an (effective) cell padding in
`(0, 0.49]`: every vertex of every produced cell ring lies within the extent,
and the cells of two records whose row indices (or column indices) differ by
exactly one are disjoint closed rectangles. -/
theorem C8_grid_cells (entries : List GridEntry) (metrics : GridMetrics)
    (minX minY maxX maxY : ℚ) (options : GridOptions) (e1 e2 : GridEntry)
    (hm : deriveGridMetrics entries = Except.ok metrics)
    (he1 : e1 ∈ entries) (he2 : e2 ∈ entries)
    (hx : minX < maxX) (hy : minY < maxY)
    (hpad0 : 0 < options.cellPadding) (hpad1 : options.cellPadding ≤ 49/100) :
    (∀ p ∈ cellRing (computeCellBounds e1 metrics (minX, minY, maxX, maxY) options),
        minX ≤ p.1 ∧ p.1 ≤ maxX ∧ minY ≤ p.2 ∧ p.2 ≤ maxY)
    ∧ ((e2.row = e1.row + 1 ∨ e2.col = e1.col + 1) →
        ∀ p : Point, inCell (computeCellBounds e1 metrics (minX, minY, maxX, maxY) options) p →
          inCell (computeCellBounds e2 metrics (minX, minY, maxX, maxY) options) p → False) := by
  unfold inCell
  obtain ⟨h1minR, h1maxR, h1minC, h1maxC, hrc, hcc⟩ := deriveGridMetrics_mem hm he1
  obtain ⟨h2minR, h2maxR, h2minC, h2maxC, _, _⟩ := deriveGridMetrics_mem hm he2
  have hrcnt : 0 < metrics.rowCount := by rw [hrc]; linarith
  have hccnt : 0 < metrics.colCount := by rw [hcc]; linarith
  obtain ⟨hchpos, hpych, hpychle, h1rich, h1richup, hheight⟩ :=
    axis_facts minY maxY (e1.row - metrics.minRow) metrics.rowCount
      ((maxY - minY) / metrics.rowCount) options.cellPadding hrcnt rfl
      (by linarith) (by linarith) hy hpad0 hpad1
  obtain ⟨hcwpos, hpxcw, hpxcwle, h1cicw, h1cicwup, hwidth⟩ :=
    axis_facts minX maxX (e1.col - metrics.minCol) metrics.colCount
      ((maxX - minX) / metrics.colCount) options.cellPadding hccnt rfl
      (by linarith) (by linarith) hx hpad0 hpad1
  obtain ⟨_, _, _, h2rich, h2richup, _⟩ :=
    axis_facts minY maxY (e2.row - metrics.minRow) metrics.rowCount
      ((maxY - minY) / metrics.rowCount) options.cellPadding hrcnt rfl
      (by linarith) (by linarith) hy hpad0 hpad1
  obtain ⟨_, _, _, h2cicw, h2cicwup, _⟩ :=
    axis_facts minX maxX (e2.col - metrics.minCol) metrics.colCount
      ((maxX - minX) / metrics.colCount) options.cellPadding hccnt rfl
      (by linarith) (by linarith) hx hpad0 hpad1
  have hbounds :
      minX ≤ (computeCellBounds e1 metrics (minX, minY, maxX, maxY) options).x0 ∧
      (computeCellBounds e1 metrics (minX, minY, maxX, maxY) options).x0 ≤
        (computeCellBounds e1 metrics (minX, minY, maxX, maxY) options).x1 ∧
      (computeCellBounds e1 metrics (minX, minY, maxX, maxY) options).x1 ≤ maxX ∧
      minY ≤ (computeCellBounds e1 metrics (minX, minY, maxX, maxY) options).y0 ∧
      (computeCellBounds e1 metrics (minX, minY, maxX, maxY) options).y0 ≤
        (computeCellBounds e1 metrics (minX, minY, maxX, maxY) options).y1 ∧
      (computeCellBounds e1 metrics (minX, minY, maxX, maxY) options).y1 ≤ maxY := by
    simp only [computeCellBounds]
    split_ifs <;> dsimp only <;>
      exact ⟨by linarith, by linarith, by linarith, by linarith, by linarith, by linarith⟩
  obtain ⟨hB1, hB2, hB3, hB4, hB5, hB6⟩ := hbounds
  constructor
  · intro p hp
    simp only [cellRing, List.mem_cons, List.not_mem_nil, or_false] at hp
    rcases hp with rfl | rfl | rfl | rfl | rfl <;>
      refine ⟨?_, ?_, ?_, ?_⟩ <;> dsimp only <;> linarith
  · intro hadj p hp1 hp2
    obtain ⟨hp1a, hp1b, hp1c, hp1d⟩ := hp1
    obtain ⟨hp2a, hp2b, hp2c, hp2d⟩ := hp2
    rcases hadj with hrow | hcol
    · have hgap :
          (computeCellBounds e2 metrics (minX, minY, maxX, maxY) options).y1 <
            (computeCellBounds e1 metrics (minX, minY, maxX, maxY) options).y0 ∨
          (computeCellBounds e1 metrics (minX, minY, maxX, maxY) options).y1 <
            (computeCellBounds e2 metrics (minX, minY, maxX, maxY) options).y0 := by
        simp only [computeCellBounds]
        rw [hrow]
        split_ifs <;> dsimp only <;> [left; right; left; right] <;> linarith
      rcases hgap with h | h <;> linarith
    · have hgap :
          (computeCellBounds e2 metrics (minX, minY, maxX, maxY) options).x1 <
            (computeCellBounds e1 metrics (minX, minY, maxX, maxY) options).x0 ∨
          (computeCellBounds e1 metrics (minX, minY, maxX, maxY) options).x1 <
            (computeCellBounds e2 metrics (minX, minY, maxX, maxY) options).x0 := by
        simp only [computeCellBounds]
        rw [hcol]
        split_ifs <;> dsimp only <;> [right; right; left; left] <;> linarith
      rcases hgap with h | h <;> linarith

/-- A feature collection whose single feature carries no join property. -/
def fcNoId : FC := ⟨[{ properties := [("name", JVal.str "nameless")] }]⟩

/-- A non-empty row list with join column `lsoa`. -/
def rowsA : List Row := [[("lsoa", JVal.str "A"), ("pop", JVal.num 1)]]

/-- C6 counterexample: after enriching a non-empty row list onto a feature
that lacks the geometry-side join property, the returned feature still has no
Region Identifier (`properties.code` is absent), refuting "every Feature has a
non-null Region Identifier after enrichment". -/
theorem C6_counterexample :
    ((enrichGeoData rowsA fcNoId "lsoa" "code" [] true).features.map
      (fun f => getKey f.properties "code")) = [Option.none] := by
  simp [enrichGeoData, fcNoId, rowsA, enrichFeature, getKey]

/-- C6 (amended): enrichment with a non-empty row list preserves the feature
list pointwise shape: every output feature is the per-feature merge of the
corresponding input feature; a feature whose join value is absent, falsy, or
has no matching aggregated rows is returned exactly unchanged (original
properties and geometry), without error; the merge never changes the
geometry.  Enrichment does not *create* Region Identifiers: a feature lacking
one keeps lacking it (see the counterexample). -/
theorem C6_enrichment_amended :
    (∀ (data : List Row) (geojson : FC) (jc gc : String)
        (aggs : List (String × String)) (nz : Bool), data ≠ [] →
        (enrichGeoData data geojson jc gc aggs nz).features =
          geojson.features.map (enrichFeature (finalAggregatedOf data jc aggs nz) gc))
    ∧ (∀ (fa : List (JVal × Props)) (gc : String) (ft : Feature),
        getKey ft.properties gc = Option.none → enrichFeature fa gc ft = ft)
    ∧ (∀ (fa : List (JVal × Props)) (gc : String) (ft : Feature) (jv : JVal),
        getKey ft.properties gc = some jv → jv.truthy = false → enrichFeature fa gc ft = ft)
    ∧ (∀ (fa : List (JVal × Props)) (gc : String) (ft : Feature) (jv : JVal),
        getKey ft.properties gc = some jv → jv.truthy = true →
        getKey fa jv = Option.none → enrichFeature fa gc ft = ft)
    ∧ (∀ (fa : List (JVal × Props)) (gc : String) (ft : Feature),
        (enrichFeature fa gc ft).geometry = ft.geometry) := by
  refine ⟨?_, ?_, ?_, ?_, ?_⟩
  · intro data geojson jc gc aggs nz hdata
    rw [enrichGeoData]
    rw [if_neg (by simpa using hdata)]
    by_cases hf : geojson.features.isEmpty
    · rw [if_pos hf]
      rw [List.isEmpty_iff] at hf
      rw [hf]
      cases geojson
      simp_all
    · rw [if_neg hf]
  · intro fa gc ft h
    rw [enrichFeature, h]
  · intro fa gc ft jv h htruthy
    simp [enrichFeature, h, htruthy]
  · intro fa gc ft jv h htruthy hfa
    simp [enrichFeature, h, htruthy, hfa]
  · intro fa gc ft
    rcases h : getKey ft.properties gc with _ | jv
    · simp [enrichFeature, h]
    · rcases hfa : getKey fa jv with _ | extra <;> cases ht : jv.truthy <;>
        simp [enrichFeature, h, hfa, ht]

/-- Witness for C6 (amended): the no-matching-rows pass-through at a concrete
feature carrying join value "Z" not present in the data. -/
theorem C6_enrichment_amended_witness :
    enrichFeature (finalAggregatedOf rowsA "lsoa" [] true) "code"
      { properties := [("code", JVal.str "Z")] } =
      { properties := [("code", JVal.str "Z")] } := by
  have h := C6_enrichment_amended.2.2.2.1 (finalAggregatedOf rowsA "lsoa" [] true) "code"
    { properties := [("code", JVal.str "Z")] } (JVal.str "Z")
    (by simp [getKey]) (by simp [JVal.truthy])
    (by simp [finalAggregatedOf, normalizeAggregatedData, aggregatedOf, rowsA,
      groupByJoinColumn, pushGroup, getKey, aggregateGroup, JVal.truthy,
      normalizeProps, numericKeysOf, numValuesAt, firstDedup, normValue])
  exact h

/-- Concrete grid record at row 0. -/
def gridEntryA : GridEntry := { id := JVal.str "A", row := 0, col := 0, source := [] }

/-- Concrete grid record at row 1 (vertically adjacent to `gridEntryA`). -/
def gridEntryB : GridEntry := { id := JVal.str "B", row := 1, col := 0, source := [] }

/-- The normalized options for the C8 witness grid (cell padding `0.1`). -/
def gridOptionsW : GridOptions :=
  normalizeOptions (some "code") { cellPadding := some (JSNumber.fin (1/10)) }

/-- Witness for C8 on a concrete 2-cell vertical grid in the extent
`[0,0,10,10]`. -/
theorem C8_grid_cells_witness :
    (∀ p ∈ cellRing (computeCellBounds gridEntryA
        { minRow := 0, maxRow := 1, minCol := 0, maxCol := 0, rowCount := 2, colCount := 1 }
        (0, 0, 10, 10) gridOptionsW),
      (0:ℚ) ≤ p.1 ∧ p.1 ≤ 10 ∧ (0:ℚ) ≤ p.2 ∧ p.2 ≤ 10)
    ∧ ((gridEntryB.row = gridEntryA.row + 1 ∨ gridEntryB.col = gridEntryA.col + 1) →
        ∀ p : Point, inCell (computeCellBounds gridEntryA
            { minRow := 0, maxRow := 1, minCol := 0, maxCol := 0, rowCount := 2, colCount := 1 }
            (0, 0, 10, 10) gridOptionsW) p →
          inCell (computeCellBounds gridEntryB
            { minRow := 0, maxRow := 1, minCol := 0, maxCol := 0, rowCount := 2, colCount := 1 }
            (0, 0, 10, 10) gridOptionsW) p → False) :=
  C8_grid_cells [gridEntryA, gridEntryB]
    { minRow := 0, maxRow := 1, minCol := 0, maxCol := 0, rowCount := 2, colCount := 1 }
    0 0 10 10 gridOptionsW gridEntryA gridEntryB
    (by norm_num [deriveGridMetrics, gridEntryA, gridEntryB])
    (by simp) (by simp) (by norm_num) (by norm_num)
    (by norm_num [gridOptionsW, normalizeOptions, clamp01])
    (by norm_num [gridOptionsW, normalizeOptions, clamp01])

/-! ### Greedy matcher lemmas -/

theorem cons_get_eraseIdx_perm {α : Type} :
    ∀ (l : List α) (i : Nat) (h : i < l.length),
      (l.get ⟨i, h⟩ :: l.eraseIdx i).Perm l := by
  intro l
  induction l with
  | nil => intro i h; simp at h
  | cons a t ih =>
    intro i h
    cases i with
    | zero => simp
    | succ j =>
      have hj : j < t.length := by simpa using h
      show (t.get ⟨j, hj⟩ :: a :: t.eraseIdx j).Perm (a :: t)
      exact (List.Perm.swap a (t.get ⟨j, hj⟩) (t.eraseIdx j)).trans
        (List.Perm.cons a (ih j hj))

theorem scanBestGo_lt :
    ∀ (l : List ℚ) (i bi : Nat) (bd : ℚ) (n : Nat),
      bi < n → i + l.length ≤ n → scanBestGo l i bi bd < n := by
  intro l
  induction l with
  | nil => intro i bi bd n hbi _; simpa [scanBestGo] using hbi
  | cons d rest ih =>
    intro i bi bd n hbi hlen
    rw [List.length_cons] at hlen
    rw [scanBestGo]
    split
    · exact ih (i + 1) i d n (by omega) (by omega)
    · exact ih (i + 1) bi bd n hbi (by omega)

theorem scanBest_lt {l : List ℚ} {i : Nat} (h : scanBest l = some i) : i < l.length := by
  cases l with
  | nil => simp [scanBest] at h
  | cons d rest =>
    rw [scanBest] at h
    injection h with h
    rw [← h]
    exact scanBestGo_lt rest 1 0 d (rest.length + 1) (by omega) (by omega)

theorem scanBest_ne_nil {l : List ℚ} (h : l ≠ []) : (scanBest l).isSome = true := by
  cases l with
  | nil => exact absurd rfl h
  | cons d rest => simp [scanBest]

/-- Every pair produced by the matcher has at least one non-null side. -/
theorem matchGo_valid :
    ∀ (fromRings : List GeoRing) (toPool : List (GeoRing × Point)),
      ∀ pair ∈ matchGo fromRings toPool,
        pair.fromRing.isSome = true ∨ pair.toRing.isSome = true := by
  intro fromRings
  induction fromRings with
  | nil =>
    intro toPool pair hpair
    rw [matchGo] at hpair
    rcases List.mem_map.mp hpair with ⟨entry, _, rfl⟩
    right
    rfl
  | cons ring rest ih =>
    intro toPool pair hpair
    rw [matchGo] at hpair
    split at hpair
    · rcases List.mem_cons.mp hpair with rfl | h
      · left; rfl
      · exact ih _ pair h
    · rcases List.mem_cons.mp hpair with rfl | h
      · left; rfl
      · exact ih _ pair h

/-- The matcher emits the `fromRings` in order, one per pair. -/
theorem matchGo_fromRings :
    ∀ (fromRings : List GeoRing) (toPool : List (GeoRing × Point)),
      (matchGo fromRings toPool).filterMap RingPair.fromRing = fromRings := by
  intro fromRings
  induction fromRings with
  | nil =>
    intro toPool
    rw [matchGo]
    rw [List.filterMap_map]
    simp [Function.comp_def, RingPair.fromRing]
  | cons ring rest ih =>
    intro toPool
    rw [matchGo]
    split
    · simp only [List.filterMap_cons]
      rw [ih]
    · simp only [List.filterMap_cons]
      rw [ih]

theorem filterMap_some_fst {α β : Type} (l : List (α × β)) :
    l.filterMap (fun x => some x.1) = l.map Prod.fst := by
  induction l with
  | nil => rfl
  | cons a t ih => simp [ih]

/-- The multiset of `toRing`s across all pairs is exactly the `toRing` pool. -/
theorem matchGo_toRings_perm :
    ∀ (fromRings : List GeoRing) (toPool : List (GeoRing × Point)),
      ((matchGo fromRings toPool).filterMap RingPair.toRing).Perm (toPool.map Prod.fst) := by
  intro fromRings
  induction fromRings with
  | nil =>
    intro toPool
    rw [matchGo]
    rw [List.filterMap_map]
    have : (RingPair.toRing ∘ fun (entry : GeoRing × Point) =>
        RingPair.mk Option.none (some entry.1)) = fun entry => some entry.1 := rfl
    rw [this, filterMap_some_fst]
  | cons ring rest ih =>
    intro toPool
    rw [matchGo]
    cases hscan : scanBest (toPool.map (fun candidate =>
        distanceSquared (computeRingCentroid ring) candidate.2)) with
    | none =>
      have hpool : toPool = [] := by
        cases toPool with
        | nil => rfl
        | cons p ps => simp [scanBest] at hscan
      subst hpool
      simpa using ih []
    | some i =>
      have hi : i < toPool.length := by
        have := scanBest_lt hscan
        simpa using this
      simp only [List.filterMap_cons]
      have hgetD : toPool.getD i ([], (0, 0)) = toPool.get ⟨i, hi⟩ :=
        List.getD_eq_get toPool _ hi
      rw [hgetD]
      have hperm := cons_get_eraseIdx_perm toPool i hi
      refine List.Perm.trans (List.Perm.cons _ (ih _)) ?_
      have := hperm.map Prod.fst
      simpa using this

/-- Each pair's rings come from the respective input lists. -/
theorem matchGo_mem :
    ∀ (fromRings : List GeoRing) (toPool : List (GeoRing × Point)),
      ∀ pair ∈ matchGo fromRings toPool,
        (∀ r, pair.fromRing = some r → r ∈ fromRings) ∧
        (∀ r, pair.toRing = some r → r ∈ toPool.map Prod.fst) := by
  intro fromRings
  induction fromRings with
  | nil =>
    intro toPool pair hpair
    rw [matchGo] at hpair
    rcases List.mem_map.mp hpair with ⟨entry, hentry, rfl⟩
    constructor
    · intro r hr; exact absurd hr (by simp)
    · intro r hr
      have : entry.1 = r := by simpa using hr
      rw [← this]
      exact List.mem_map_of_mem Prod.fst hentry
  | cons ring rest ih =>
    intro toPool pair hpair
    rw [matchGo] at hpair
    cases hscan : scanBest (toPool.map (fun candidate =>
        distanceSquared (computeRingCentroid ring) candidate.2)) with
    | none =>
      rw [hscan] at hpair
      rcases List.mem_cons.mp hpair with rfl | h
      · refine ⟨?_, ?_⟩
        · intro r hr
          have : ring = r := by simpa using hr
          rw [← this]; exact List.mem_cons_self _ _
        · intro r hr; exact absurd hr (by simp)
      · obtain ⟨h1, h2⟩ := ih toPool pair h
        exact ⟨fun r hr => List.mem_cons_of_mem _ (h1 r hr), h2⟩
    | some i =>
      rw [hscan] at hpair
      have hi : i < toPool.length := by
        have := scanBest_lt hscan
        simpa using this
      rcases List.mem_cons.mp hpair with rfl | h
      · refine ⟨?_, ?_⟩
        · intro r hr
          have : ring = r := by simpa using hr
          rw [← this]; exact List.mem_cons_self _ _
        · intro r hr
          have hgetD : toPool.getD i ([], (0, 0)) = toPool.get ⟨i, hi⟩ :=
            List.getD_eq_get toPool _ hi
          have : (toPool.getD i ([], (0, 0))).1 = r := by simpa using hr
          rw [← this, hgetD]
          exact List.mem_map_of_mem Prod.fst (toPool.get_mem _ _)
      · obtain ⟨h1, h2⟩ := ih (toPool.eraseIdx i) pair h
        refine ⟨fun r hr => List.mem_cons_of_mem _ (h1 r hr), fun r hr => ?_⟩
        rcases List.mem_map.mp (h2 r hr) with ⟨entry, hentry, rfl⟩
        exact List.mem_map_of_mem Prod.fst (List.mem_of_mem_eraseIdx hentry)

theorem matchRingPairs_ne_nil {f t : List GeoRing} (h : f ≠ [] ∨ t ≠ []) :
    matchRingPairs f t ≠ [] := by
  cases f with
  | nil =>
    cases t with
    | nil => rcases h with h | h <;> exact absurd rfl h
    | cons r rs =>
      rw [matchRingPairs, matchGo]
      simp
  | cons r rs =>
    rw [matchRingPairs, matchGo]
    split <;> simp

theorem createRingInterpolator_isSome {pair : RingPair}
    (h : pair.fromRing.isSome = true ∨ pair.toRing.isSome = true) :
    (createRingInterpolator pair).isSome = true := by
  obtain ⟨fr, tr⟩ := pair
  cases fr with
  | none =>
    cases tr with
    | none => simp [RingPair.fromRing, RingPair.toRing] at h
    | some t =>
      cases hp : createPlaceholderRing t <;> simp [createRingInterpolator, hp]
  | some f =>
    cases tr with
    | none =>
      cases hp : createPlaceholderRing f <;> simp [createRingInterpolator, hp]
    | some t => simp [createRingInterpolator]

theorem ringInterpolatorsOf_ne_nil {fromG toG : Option Geometry}
    (h : extractOuterRings fromG ≠ [] ∨ extractOuterRings toG ≠ []) :
    ringInterpolatorsOf fromG toG ≠ [] := by
  have hpairs : matchRingPairs (extractOuterRings fromG) (extractOuterRings toG) ≠ [] :=
    matchRingPairs_ne_nil h
  rcases List.exists_mem_of_ne_nil _ hpairs with ⟨pair, hpair⟩
  have hvalid := matchGo_valid (extractOuterRings fromG) _ pair hpair
  have hsome := createRingInterpolator_isSome hvalid
  rcases Option.isSome_iff_exists.mp hsome with ⟨ri, hri⟩
  intro hnil
  have : ri ∈ ringInterpolatorsOf fromG toG :=
    List.mem_filterMap.mpr ⟨pair, hpair, hri⟩
  rw [hnil] at this
  exact absurd this (List.not_mem_nil ri)

/-- C4 counterexample: a `Polygon` geometry whose outer ring has a single
vertex still yields a Geometry Interpolator (paired against an absent
cartogram geometry), although neither side contributes any ring with ≥ 3
vertices — the `extractOuterRings` vertex-count filter exists only on the
`MultiPolygon` path. -/
theorem C4_counterexample :
    (createGeometryInterpolator (some (Geometry.polygon [[((5:ℚ), (5:ℚ))]]))
        Option.none).isSome = true
    ∧ (∀ r ∈ extractOuterRings (some (Geometry.polygon [[((5:ℚ), (5:ℚ))]])), r.length < 3)
    ∧ extractOuterRings (Option.none : Option Geometry) = [] := by
  have hex : extractOuterRings (some (Geometry.polygon [[((5:ℚ), (5:ℚ))]])) =
      [[((5:ℚ), (5:ℚ))]] := by
    simp [extractOuterRings, ensureClosedRing]
  refine ⟨?_, ?_, rfl⟩
  · rw [createGeometryInterpolator]
    have hne : ringInterpolatorsOf (some (Geometry.polygon [[((5:ℚ), (5:ℚ))]]))
        Option.none ≠ [] :=
      ringInterpolatorsOf_ne_nil (Or.inl (by rw [hex]; simp))
    rw [hex]
    simp only [extractOuterRings, List.isEmpty_cons, Bool.false_and, Bool.false_eq_true,
      if_false]
    rw [if_neg (by simpa using hne)]
    rfl
  · rw [hex]
    intro r hr
    rcases List.mem_singleton.mp hr with rfl
    simp

/-- C4 (amended): a Geometry Interpolator is created if and only if at least
one of the two geometries contributes at least one outer ring, where a
`MultiPolygon` contributes only closed first-rings of length ≥ 3 but a
`Polygon` contributes its closed first ring regardless of vertex count (so an
interpolator can be created from a `Polygon` ring of fewer than 3 vertices —
see the counterexample). -/
theorem C4_interpolator_creation_amended :
    (∀ fromG toG : Option Geometry,
        (createGeometryInterpolator fromG toG).isSome = true ↔
          (extractOuterRings fromG ≠ [] ∨ extractOuterRings toG ≠ []))
    ∧ (∀ (polys : List (List GeoRing)), ∀ r ∈ extractOuterRings
        (some (Geometry.multiPolygon polys)), 3 ≤ r.length) := by
  constructor
  · intro fromG toG
    constructor
    · intro hsome
      by_contra hcon
      push_neg at hcon
      obtain ⟨hf, ht⟩ := hcon
      rw [createGeometryInterpolator, if_pos (by simp [hf, ht])] at hsome
      simp at hsome
    · intro h
      rw [createGeometryInterpolator]
      have hne := ringInterpolatorsOf_ne_nil h
      rw [if_neg ?_]
      · rw [if_neg (by simpa using hne)]
        rfl
      · rcases h with h | h <;> simp [List.isEmpty_iff, h]
  · intro polys r hr
    simp only [extractOuterRings] at hr
    have := List.of_mem_filter hr
    simpa using this

/-- Witness for C4 (amended) on a concrete matched pair of squares. -/
theorem C4_interpolator_creation_amended_witness :
    (createGeometryInterpolator (some (Geometry.polygon [sqRing]))
      (some (Geometry.polygon [sqRing]))).isSome = true :=
  (C4_interpolator_creation_amended.1 (some (Geometry.polygon [sqRing]))
    (some (Geometry.polygon [sqRing]))).mpr
    (Or.inl (by simp [extractOuterRings, sqRing, ensureClosedRing]))

/-! ### Endpoint lemmas for the geometry interpolator -/

theorem clampFactor_zero : clampFactor 0 = 0 := by norm_num [clampFactor]

theorem clampFactor_one : clampFactor 1 = 1 := by norm_num [clampFactor]

theorem flubberLerp_zero (f t : GeoRing) : flubberLerp f t 0 = f := by
  simp [flubberLerp]

theorem flubberLerp_one (f t : GeoRing) : flubberLerp f t 1 = t := by
  norm_num [flubberLerp]

theorem ensureClosedRing_idem (r : GeoRing) :
    ensureClosedRing (ensureClosedRing r) = ensureClosedRing r := by
  cases r with
  | nil => rfl
  | cons p rest =>
    rw [ensureClosedRing]
    by_cases h : p = (p :: rest).getLast (List.cons_ne_nil p rest)
    · rw [if_pos h, ensureClosedRing, if_pos h]
    · rw [if_neg h]
      have hlast : (p :: rest ++ [p]).getLast (List.cons_ne_nil p (rest ++ [p])) = p := by
        have h1 : (p :: rest ++ [p]).getLast? = some p := by
          have he : p :: rest ++ [p] = (p :: rest) ++ [p] := rfl
          rw [he, List.getLast?_concat]
        have h2 : (p :: rest ++ [p]).getLast? =
            some ((p :: rest ++ [p]).getLast (List.cons_ne_nil p (rest ++ [p]))) :=
          List.getLast?_eq_getLast _ _
        rw [h1] at h2
        injection h2 with h2
        exact h2.symm
      have hunfold : ensureClosedRing ((p :: rest) ++ [p]) =
          if p = ((p :: rest) ++ [p]).getLast (List.cons_ne_nil p (rest ++ [p]))
          then p :: (rest ++ [p]) else (p :: (rest ++ [p])) ++ [p] := rfl
      rw [hunfold, if_pos hlast.symm]
      exact (List.cons_append p rest [p]).symm

theorem extract_closed {g : Option Geometry} {r : GeoRing}
    (hr : r ∈ extractOuterRings g) : ensureClosedRing r = r := by
  match g with
  | Option.none => simp [extractOuterRings] at hr
  | some (.polygon coords) =>
    rw [extractOuterRings] at hr
    cases hh : coords.head? with
    | none => rw [hh] at hr; simp at hr
    | some ring =>
      rw [hh] at hr
      rcases List.mem_singleton.mp hr with rfl
      exact ensureClosedRing_idem ring
  | some (.multiPolygon polys) =>
    rw [extractOuterRings] at hr
    have hr' := List.mem_of_mem_filter hr
    rcases List.mem_map.mp hr' with ⟨r₀, _, rfl⟩
    exact ensureClosedRing_idem r₀
  | some .otherGeom => simp [extractOuterRings] at hr

theorem filterMap_all_some_length {α β : Type} (f : α → Option β) :
    ∀ (l : List α), (∀ x ∈ l, (f x).isSome = true) → (l.filterMap f).length = l.length := by
  intro l
  induction l with
  | nil => intro _; rfl
  | cons a t ih =>
    intro h
    rcases Option.isSome_iff_exists.mp (h a (List.mem_cons_self a t)) with ⟨b, hb⟩
    rw [List.filterMap_cons, hb]
    simp only [List.length_cons]
    rw [ih (fun x hx => h x (List.mem_cons_of_mem a hx))]

theorem flatten_map_singleton {α : Type} (l : List α) :
    (l.map (fun r => [r])).flatten = l := by
  induction l with
  | nil => rfl
  | cons a t ih => simp [ih]

theorem rings_at_zero (pairs : List RingPair)
    (hclosed : ∀ p ∈ pairs, ∀ f, p.fromRing = some f → ensureClosedRing f = f) :
    ((pairs.filterMap createRingInterpolator).filterMap
      (fun entry => if entry.isVisible 0 = true then
        some (ensureClosedRing (entry.interpolate 0)) else Option.none))
    = pairs.filterMap RingPair.fromRing := by
  rw [List.filterMap_filterMap]
  apply List.filterMap_congr
  intro p hp
  have hvapp : (decide (RING_VISIBILITY_EPSILON < (0:ℚ))) = false := by
    rw [decide_eq_false_iff_not]
    norm_num [RING_VISIBILITY_EPSILON]
  have hvdis : (decide ((0:ℚ) < 1 - RING_VISIBILITY_EPSILON)) = true := by
    rw [decide_eq_true_eq]
    norm_num [RING_VISIBILITY_EPSILON]
  obtain ⟨fr, tr⟩ := p
  cases fr with
  | none =>
    cases tr with
    | none => rfl
    | some t =>
      cases hph : createPlaceholderRing t <;>
        simp [createRingInterpolator, hph, hvapp, RingPair.fromRing, RingPair.toRing]
  | some f =>
    have hf : ensureClosedRing f = f := hclosed ⟨some f, tr⟩ hp f rfl
    cases tr with
    | none =>
      cases hph : createPlaceholderRing f <;>
        simp [createRingInterpolator, hph, hvdis, RingPair.fromRing,
          flubberLerp_zero, hf] <;>
        norm_num [RING_VISIBILITY_EPSILON]
    | some t =>
      simp [createRingInterpolator, RingPair.fromRing, flubberLerp_zero, hf]

theorem rings_at_one (pairs : List RingPair)
    (hclosed : ∀ p ∈ pairs, ∀ t, p.toRing = some t → ensureClosedRing t = t) :
    ((pairs.filterMap createRingInterpolator).filterMap
      (fun entry => if entry.isVisible 1 = true then
        some (ensureClosedRing (entry.interpolate 1)) else Option.none))
    = pairs.filterMap RingPair.toRing := by
  rw [List.filterMap_filterMap]
  apply List.filterMap_congr
  intro p hp
  have hvapp : (decide (RING_VISIBILITY_EPSILON < (1:ℚ))) = true := by
    rw [decide_eq_true_eq]
    norm_num [RING_VISIBILITY_EPSILON]
  have hvdis : (decide ((1:ℚ) < 1 - RING_VISIBILITY_EPSILON)) = false := by
    rw [decide_eq_false_iff_not]
    norm_num [RING_VISIBILITY_EPSILON]
  obtain ⟨fr, tr⟩ := p
  cases fr with
  | none =>
    cases tr with
    | none => rfl
    | some t =>
      have ht : ensureClosedRing t = t := hclosed ⟨Option.none, some t⟩ hp t rfl
      cases hph : createPlaceholderRing t <;>
        simp [createRingInterpolator, hph, hvapp, RingPair.toRing,
          flubberLerp_one, ht, ensureClosedRing_idem]
  | some f =>
    cases tr with
    | none =>
      cases hph : createPlaceholderRing f <;>
        simp [createRingInterpolator, hph, hvdis, RingPair.toRing]
    | some t =>
      have ht : ensureClosedRing t = t := hclosed ⟨some f, some t⟩ hp t rfl
      simp [createRingInterpolator, RingPair.toRing, flubberLerp_one, ht]

theorem isEmpty_false_of_ne_nil {α : Type} {l : List α} (h : l ≠ []) : l.isEmpty = false := by
  cases l with
  | nil => exact absurd rfl h
  | cons a t => rfl

theorem ringsOf_geometryInterpolateAt (gtype : GeomType) (ris : List RingInterpolator)
    (rawFactor : ℚ) (R : List GeoRing)
    (hR : ris.filterMap (fun entry =>
        if entry.isVisible (clampFactor rawFactor) = true then
          some (ensureClosedRing (entry.interpolate (clampFactor rawFactor)))
        else Option.none) = R)
    (hR4 : ∀ r ∈ R, 4 ≤ r.length) (hRne : R ≠ [])
    (hpoly : gtype = GeomType.polygonT → R.length = 1) :
    (geometryInterpolateAt gtype ris rawFactor).ringsOf = R := by
  have hfilter : R.filter (fun ring => decide (4 ≤ ring.length)) = R :=
    List.filter_eq_self.mpr (fun r hr => decide_eq_true (hR4 r hr))
  have hempty : R.isEmpty = false := isEmpty_false_of_ne_nil hRne
  cases gtype with
  | polygonT =>
    obtain ⟨r, hr⟩ := List.length_eq_one.mp (hpoly rfl)
    have hpr : decide (4 ≤ r.length) = true :=
      decide_eq_true (hR4 r (by rw [hr]; exact List.mem_singleton_self r))
    simp only [geometryInterpolateAt, hR, hfilter, hempty, Bool.false_eq_true, if_false]
    rw [hr]
    simp [List.find?_cons, hpr, Coords.ringsOf]
  | multiPolygonT =>
    simp only [geometryInterpolateAt, hR, hfilter, hempty, Bool.false_eq_true, if_false]
    simp [Coords.ringsOf, flatten_map_singleton]

theorem matchRingPairs_closed {fromG toG : Option Geometry} :
    ∀ p ∈ matchRingPairs (extractOuterRings fromG) (extractOuterRings toG),
      (∀ f, p.fromRing = some f → ensureClosedRing f = f) ∧
      (∀ t, p.toRing = some t → ensureClosedRing t = t) := by
  intro p hp
  rw [matchRingPairs] at hp
  have hm := matchGo_mem (extractOuterRings fromG) _ p hp
  constructor
  · intro f hf
    exact extract_closed (hm.1 f hf)
  · intro t ht
    have hmem := hm.2 t ht
    simp at hmem
    exact extract_closed hmem

/-- C2: for a region present in both geographies (both sides contribute at
least one outer ring, each a valid closed GeoJSON ring of ≥ 4 vertices), the
geometry interpolator at factor `0` returns exactly the closed regular ring
set, and at factor `1` returns the closed cartogram ring set up to order (the
greedy matcher may permute the cartogram rings).  The external `flubber`
boundary interpolator is modelled endpoint-exactly per spec §4.4/§8. -/
theorem C2_endpoint_reproduction (fromG toG : Option Geometry) (gi : GeometryInterpolator)
    (hgi : createGeometryInterpolator fromG toG = some gi)
    (hfrom4 : ∀ r ∈ extractOuterRings fromG, 4 ≤ r.length)
    (hto4 : ∀ r ∈ extractOuterRings toG, 4 ≤ r.length)
    (hfne : extractOuterRings fromG ≠ [])
    (htne : extractOuterRings toG ≠ []) :
    (gi.interpolate 0).ringsOf = extractOuterRings fromG ∧
    ((gi.interpolate 1).ringsOf).Perm (extractOuterRings toG) := by
  have hrisne : ringInterpolatorsOf fromG toG ≠ [] :=
    ringInterpolatorsOf_ne_nil (Or.inl hfne)
  rw [createGeometryInterpolator] at hgi
  rw [if_neg (by rw [isEmpty_false_of_ne_nil hfne]; simp)] at hgi
  rw [if_neg (by rw [isEmpty_false_of_ne_nil hrisne]; simp)] at hgi
  have hc_from : ∀ p ∈ matchRingPairs (extractOuterRings fromG) (extractOuterRings toG),
      ∀ f, p.fromRing = some f → ensureClosedRing f = f :=
    fun p hp => (matchRingPairs_closed p hp).1
  have hc_to : ∀ p ∈ matchRingPairs (extractOuterRings fromG) (extractOuterRings toG),
      ∀ t, p.toRing = some t → ensureClosedRing t = t :=
    fun p hp => (matchRingPairs_closed p hp).2
  have hR0 : (ringInterpolatorsOf fromG toG).filterMap (fun entry =>
      if entry.isVisible (clampFactor 0) = true then
        some (ensureClosedRing (entry.interpolate (clampFactor 0)))
      else Option.none) = extractOuterRings fromG := by
    rw [clampFactor_zero, ringInterpolatorsOf, rings_at_zero _ hc_from, matchRingPairs]
    exact matchGo_fromRings _ _
  have hT1 : (ringInterpolatorsOf fromG toG).filterMap (fun entry =>
      if entry.isVisible (clampFactor 1) = true then
        some (ensureClosedRing (entry.interpolate (clampFactor 1)))
      else Option.none) =
      (matchRingPairs (extractOuterRings fromG) (extractOuterRings toG)).filterMap
        RingPair.toRing := by
    rw [clampFactor_one, ringInterpolatorsOf, rings_at_one _ hc_to]
  have hperm : ((matchRingPairs (extractOuterRings fromG) (extractOuterRings toG)).filterMap
      RingPair.toRing).Perm (extractOuterRings toG) := by
    rw [matchRingPairs]
    have h := matchGo_toRings_perm (extractOuterRings fromG)
      ((extractOuterRings toG).map (fun ring => (ring, computeRingCentroid ring)))
    simpa [Function.comp_def] using h
  have hlenris : (ringInterpolatorsOf fromG toG).length =
      (matchRingPairs (extractOuterRings fromG) (extractOuterRings toG)).length := by
    rw [ringInterpolatorsOf]
    apply filterMap_all_some_length
    intro pair hpair
    rw [matchRingPairs] at hpair
    exact createRingInterpolator_isSome (matchGo_valid _ _ pair hpair)
  have hgen : ∀ gt : GeomType,
      (gt = GeomType.polygonT → (ringInterpolatorsOf fromG toG).length = 1) →
      (geometryInterpolateAt gt (ringInterpolatorsOf fromG toG) 0).ringsOf =
          extractOuterRings fromG ∧
        ((geometryInterpolateAt gt (ringInterpolatorsOf fromG toG) 1).ringsOf).Perm
          (extractOuterRings toG) := by
    intro gt hlen1
    constructor
    · apply ringsOf_geometryInterpolateAt _ _ _ _ hR0 hfrom4 hfne
      intro hgt
      have hl1 := hlen1 hgt
      have hle : (extractOuterRings fromG).length ≤
          (matchRingPairs (extractOuterRings fromG) (extractOuterRings toG)).length := by
        conv_lhs => rw [← matchGo_fromRings (extractOuterRings fromG)
          ((extractOuterRings toG).map (fun ring => (ring, computeRingCentroid ring)))]
        rw [matchRingPairs]
        exact List.length_filterMap_le _ _
      rw [← hlenris, hl1] at hle
      have hpos : 0 < (extractOuterRings fromG).length := List.length_pos.mpr hfne
      omega
    · have hgoal := ringsOf_geometryInterpolateAt gt (ringInterpolatorsOf fromG toG) 1
        ((matchRingPairs (extractOuterRings fromG) (extractOuterRings toG)).filterMap
          RingPair.toRing) hT1 ?_ ?_ ?_
      · rw [hgoal]
        exact hperm
      · intro r hr
        exact hto4 r (hperm.mem_iff.mp hr)
      · intro hnil
        rw [hnil] at hperm
        have hlen0 := hperm.length_eq
        simp only [List.length_nil] at hlen0
        exact absurd (List.length_eq_zero.mp hlen0.symm) htne
      · intro hgt
        have hl1 := hlen1 hgt
        have hle : ((matchRingPairs (extractOuterRings fromG)
            (extractOuterRings toG)).filterMap RingPair.toRing).length ≤
            (matchRingPairs (extractOuterRings fromG) (extractOuterRings toG)).length :=
          List.length_filterMap_le _ _
        rw [← hlenris, hl1] at hle
        have hpos : 0 < ((matchRingPairs (extractOuterRings fromG)
            (extractOuterRings toG)).filterMap RingPair.toRing).length := by
          rw [hperm.length_eq]
          exact List.length_pos.mpr htne
        omega
  have hlen1 : (if (decide ((ringInterpolatorsOf fromG toG).length = 1) &&
        !isMultiPolygonType fromG && !isMultiPolygonType toG) = true
      then GeomType.polygonT else GeomType.multiPolygonT) = GeomType.polygonT →
      (ringInterpolatorsOf fromG toG).length = 1 := by
    intro hgt
    by_cases hc : (decide ((ringInterpolatorsOf fromG toG).length = 1) &&
        !isMultiPolygonType fromG && !isMultiPolygonType toG) = true
    · simp only [Bool.and_eq_true] at hc
      exact of_decide_eq_true hc.1.1

    · rw [if_neg hc] at hgt
      exact absurd hgt (by simp)
  have hres := hgen _ hlen1
  injection hgi with hgi
  rw [← hgi]
  exact hres

/-- The smaller closed square used as a concrete cartogram shape. -/
def sqRingSmall : GeoRing := [(0, 0), (2, 0), (2, 2), (0, 2), (0, 0)]

theorem extract_sqRing :
    extractOuterRings (some (Geometry.polygon [sqRing])) = [sqRing] := by
  simp [extractOuterRings, ensureClosedRing, sqRing, List.getLast]

theorem extract_sqRingSmall :
    extractOuterRings (some (Geometry.polygon [sqRingSmall])) = [sqRingSmall] := by
  simp [extractOuterRings, ensureClosedRing, sqRingSmall, List.getLast]

/-- Witness for C2 on a concrete matched pair of squares: at factor 0 the
interpolator returns exactly the regular ring. -/
theorem C2_endpoint_reproduction_witness :
    ((createGeometryInterpolator (some (Geometry.polygon [sqRing]))
      (some (Geometry.polygon [sqRingSmall]))).map
        (fun gi => (gi.interpolate 0).ringsOf)) = some [sqRing] := by
  have hne1 : extractOuterRings (some (Geometry.polygon [sqRing])) ≠ [] := by
    rw [extract_sqRing]; simp
  have hne2 : extractOuterRings (some (Geometry.polygon [sqRingSmall])) ≠ [] := by
    rw [extract_sqRingSmall]; simp
  rcases hgi : createGeometryInterpolator (some (Geometry.polygon [sqRing]))
      (some (Geometry.polygon [sqRingSmall])) with _ | gi
  · have hrisne : ringInterpolatorsOf (some (Geometry.polygon [sqRing]))
        (some (Geometry.polygon [sqRingSmall])) ≠ [] :=
      ringInterpolatorsOf_ne_nil (Or.inl hne1)
    rw [createGeometryInterpolator] at hgi
    rw [if_neg (by rw [isEmpty_false_of_ne_nil hne1]; simp)] at hgi
    rw [if_neg (by rw [isEmpty_false_of_ne_nil hrisne]; simp)] at hgi
    exact absurd hgi (by simp)
  · have h := C2_endpoint_reproduction _ _ gi hgi
      (by rw [extract_sqRing]; intro r hr; rcases List.mem_singleton.mp hr with rfl
          simp [sqRing])
      (by rw [extract_sqRingSmall]; intro r hr; rcases List.mem_singleton.mp hr with rfl
          simp [sqRingSmall])
      hne1 hne2
    have hmap : Option.map (fun gi => (gi.interpolate 0).ringsOf) (some gi) =
        some ((gi.interpolate 0).ringsOf) := rfl
    rw [hmap, h.1, extract_sqRing]

/-! ### Transactionality of `prepare()` -/

theorem loadDataRun_fields (e : Engine) :
    (loadDataRun e).1.state = e.state ∧
    (loadDataRun e).1.geoJSONJoinColumn = e.geoJSONJoinColumn := by
  rw [loadDataRun]
  rcases hd : e.data with _ | rows
  · rcases hg : e.getData with _ | res
    · exact ⟨rfl, rfl⟩
    · cases res with
      | ok result => exact ⟨rfl, rfl⟩
      | error msg => exact ⟨rfl, rfl⟩
  · exact ⟨rfl, rfl⟩

theorem ensureCartogramRun_fields (e : Engine) :
    (ensureCartogramRun e).1.state = e.state ∧
    (ensureCartogramRun e).1.geoJSONJoinColumn = e.geoJSONJoinColumn := by
  rw [ensureCartogramRun]
  rcases hn : e.normalizedCartogramGeoJSON with _ | fc
  · rcases hnc : normalizeCartogramInput e.cartogramGeoJSON (some e.regularGeoJSON)
        e.geoJSONJoinColumn e.cartogramGridOptions with msg | fc
    · exact ⟨rfl, rfl⟩
    · exact ⟨rfl, rfl⟩
  · exact ⟨rfl, rfl⟩

theorem accessors_congr {e e' : Engine} (hs : e'.state = e.state)
    (hj : e'.geoJSONJoinColumn = e.geoJSONJoinColumn) :
    getKeyDataE e' = getKeyDataE e ∧
    getRegularFeatureCollectionE e' = getRegularFeatureCollectionE e ∧
    getCartogramFeatureCollectionE e' = getCartogramFeatureCollectionE e ∧
    getGeographyLookupE e' = getGeographyLookupE e ∧
    getCartogramLookupE e' = getCartogramLookupE e ∧
    (∀ f, getInterpolatedFeatureCollectionE e' f = getInterpolatedFeatureCollectionE e f) ∧
    (∀ f, getInterpolatedLookupE e' f = getInterpolatedLookupE e f) := by
  refine ⟨?_, ?_, ?_, ?_, ?_, ?_, ?_⟩
  · rw [getKeyDataE, getKeyDataE, hs]
  · rw [getRegularFeatureCollectionE, getRegularFeatureCollectionE, hs]
  · rw [getCartogramFeatureCollectionE, getCartogramFeatureCollectionE, hs]
  · rw [getGeographyLookupE, getGeographyLookupE, hs]
  · rw [getCartogramLookupE, getCartogramLookupE, hs]
  · intro f
    rw [getInterpolatedFeatureCollectionE, getInterpolatedFeatureCollectionE, hs]
  · intro f
    have hfc : getInterpolatedFeatureCollectionE e' f = getInterpolatedFeatureCollectionE e f := by
      rw [getInterpolatedFeatureCollectionE, getInterpolatedFeatureCollectionE, hs]
    rw [getInterpolatedLookupE, getInterpolatedLookupE, hj, hfc]

theorem prepareFinish_error_fst {e2 : Engine} {re ce : FC} {err : String}
    (herr : (prepareFinish e2 re ce).2 = some err) : (prepareFinish e2 re ce).1 = e2 := by
  rw [prepareFinish] at herr ⊢
  cases hw1 : toWGS84FeatureCollection re e2.projection with
  | error msg => rfl
  | ok regularWGS84 =>
    cases hw2 : toWGS84FeatureCollection ce e2.projection with
    | error msg => rfl
    | ok cartogramWGS84 =>
      rw [hw1, hw2] at herr
      simp at herr

theorem prepareWithData_error_state {e1 : Engine} {md : List Row} {err : String}
    (herr : (prepareWithData e1 md).2 = some err) :
    (prepareWithData e1 md).1.state = e1.state ∧
    (prepareWithData e1 md).1.geoJSONJoinColumn = e1.geoJSONJoinColumn := by
  rw [prepareWithData] at herr ⊢
  rcases hec : ensureCartogramRun e1 with ⟨e2, res2⟩
  obtain ⟨h2s, h2j⟩ : e2.state = e1.state ∧ e2.geoJSONJoinColumn = e1.geoJSONJoinColumn := by
    have hf := ensureCartogramRun_fields e1
    rw [hec] at hf
    exact hf
  rw [hec] at herr
  cases res2 with
  | error msg => exact ⟨h2s, h2j⟩
  | ok baseCartogramGeoJSON =>
    have hfin := prepareFinish_error_fst herr
    rw [hfin]
    exact ⟨h2s, h2j⟩

theorem prepareRun_error_state {e : Engine} {err : String}
    (herr : (prepareRun e).2 = some err) :
    (prepareRun e).1.state = e.state ∧
    (prepareRun e).1.geoJSONJoinColumn = e.geoJSONJoinColumn := by
  rw [prepareRun] at herr ⊢
  rcases hld : loadDataRun e with ⟨e1, res1⟩
  obtain ⟨h1s, h1j⟩ : e1.state = e.state ∧ e1.geoJSONJoinColumn = e.geoJSONJoinColumn := by
    have hf := loadDataRun_fields e
    rw [hld] at hf
    exact hf
  rw [hld] at herr
  cases res1 with
  | error msg => exact ⟨h1s, h1j⟩
  | ok modelData =>
    have hwd := prepareWithData_error_state herr
    exact ⟨hwd.1.trans h1s, hwd.2.trans h1j⟩

/-- C9: `prepare()` is transactional: if a repeated `prepare()` call on an
already-prepared engine fails at any step (data loading, cartogram
normalization, or either projection), the engine's `state` field — assigned
only once, at the very end of `prepare()` — is untouched, so every accessor
returns exactly what it returned before the failed call (even though the
failed call may have cached `this.data` or the normalized cartogram). -/
theorem C9_prepare_transactional (e : Engine) (err : String)
    (hprep : e.state.prepared = true)
    (herr : (prepareRun e).2 = some err) :
    (prepareRun e).1.state = e.state ∧
    getKeyDataE (prepareRun e).1 = getKeyDataE e ∧
    getRegularFeatureCollectionE (prepareRun e).1 = getRegularFeatureCollectionE e ∧
    getCartogramFeatureCollectionE (prepareRun e).1 = getCartogramFeatureCollectionE e ∧
    getGeographyLookupE (prepareRun e).1 = getGeographyLookupE e ∧
    getCartogramLookupE (prepareRun e).1 = getCartogramLookupE e ∧
    (∀ f, getInterpolatedFeatureCollectionE (prepareRun e).1 f =
      getInterpolatedFeatureCollectionE e f) ∧
    (∀ f, getInterpolatedLookupE (prepareRun e).1 f = getInterpolatedLookupE e f) := by
  obtain ⟨hs, hj⟩ := prepareRun_error_state herr
  exact ⟨hs, accessors_congr hs hj⟩

/-- A prepared engine whose second `prepare()` fails: its cartogram input is
an unsupported shape and nothing is cached yet. -/
def engineW : Engine :=
  { regularGeoJSON := ⟨[]⟩,
    cartogramGeoJSON := CartogramInput.badInput,
    data := some [],
    getData := Option.none,
    joinColumn := "lsoa",
    geoJSONJoinColumn := "code",
    aggregations := [],
    normalize := true,
    projection := fun p => Except.ok p,
    cartogramGridOptions := {},
    normalizedCartogramGeoJSON := Option.none,
    state :=
      { prepared := true, regularEnriched := Option.none, cartogramEnriched := Option.none,
        regularWGS84 := Option.none, cartogramWGS84 := Option.none,
        geographyLookup := [], cartogramLookup := [], keyData := [], interpolators := [] } }

/-- Witness for C9: `engineW`'s `prepare()` fails at cartogram normalization
and all accessors are unaffected. -/
theorem C9_prepare_transactional_witness :
    (prepareRun engineW).1.state = engineW.state ∧
    getKeyDataE (prepareRun engineW).1 = getKeyDataE engineW ∧
    getRegularFeatureCollectionE (prepareRun engineW).1 =
      getRegularFeatureCollectionE engineW ∧
    getCartogramFeatureCollectionE (prepareRun engineW).1 =
      getCartogramFeatureCollectionE engineW ∧
    getGeographyLookupE (prepareRun engineW).1 = getGeographyLookupE engineW ∧
    getCartogramLookupE (prepareRun engineW).1 = getCartogramLookupE engineW ∧
    (∀ f, getInterpolatedFeatureCollectionE (prepareRun engineW).1 f =
      getInterpolatedFeatureCollectionE engineW f) ∧
    (∀ f, getInterpolatedLookupE (prepareRun engineW).1 f =
      getInterpolatedLookupE engineW f) :=
  C9_prepare_transactional engineW "Unsupported cartogram input format" rfl rfl

/-! ### C3: defensive copies (object-identity model) -/

mutual
theorem cloneDeep_counter_le : ∀ (c : Nat) (v : HVal), c ≤ (cloneDeep c v).2
  | c, .prim _ => Nat.le_refl c
  | c, .obj _ fields =>
    Nat.le_trans (Nat.le_succ c) (cloneFields_counter_le (c + 1) fields)
theorem cloneFields_counter_le : ∀ (c : Nat) (fs : HFields), c ≤ (cloneFields c fs).2
  | c, .fnil => Nat.le_refl c
  | c, .fcons _ v rest =>
    Nat.le_trans (cloneDeep_counter_le c v) (cloneFields_counter_le (cloneDeep c v).2 rest)
end

mutual
theorem cloneDeep_ids_bound : ∀ (c : Nat) (v : HVal) (i : Nat),
    i ∈ (cloneDeep c v).1.ids → c ≤ i ∧ i < (cloneDeep c v).2
  | c, .prim _, i => by
    intro h
    simp [cloneDeep, HVal.ids] at h
  | c, .obj j fields, i => by
    intro h
    have hc := cloneFields_counter_le (c + 1) fields
    have h1 : (cloneDeep c (HVal.obj j fields)).1
        = HVal.obj c (cloneFields (c + 1) fields).1 := rfl
    have h2 : (cloneDeep c (HVal.obj j fields)).2 = (cloneFields (c + 1) fields).2 := rfl
    rw [h1] at h
    rw [h2]
    have hmem : i = c ∨ i ∈ (cloneFields (c + 1) fields).1.idsF := by
      simpa [HVal.ids] using h
    rcases hmem with rfl | hmem
    · exact ⟨Nat.le_refl i, by omega⟩
    · have hb := cloneFields_ids_bound (c + 1) fields i hmem
      exact ⟨by omega, hb.2⟩
theorem cloneFields_ids_bound : ∀ (c : Nat) (fs : HFields) (i : Nat),
    i ∈ (cloneFields c fs).1.idsF → c ≤ i ∧ i < (cloneFields c fs).2
  | c, .fnil, i => by
    intro h
    simp [cloneFields, HFields.idsF] at h
  | c, .fcons k v rest, i => by
    intro h
    have h1 : (cloneFields c (HFields.fcons k v rest)).1
        = HFields.fcons k (cloneDeep c v).1 (cloneFields (cloneDeep c v).2 rest).1 := rfl
    have h2 : (cloneFields c (HFields.fcons k v rest)).2
        = (cloneFields (cloneDeep c v).2 rest).2 := rfl
    rw [h1] at h
    rw [h2]
    have hcv := cloneDeep_counter_le c v
    have hcr := cloneFields_counter_le (cloneDeep c v).2 rest
    have hmem : i ∈ (cloneDeep c v).1.ids ∨ i ∈ (cloneFields (cloneDeep c v).2 rest).1.idsF := by
      simpa [HFields.idsF] using h
    rcases hmem with hmem | hmem
    · have hb := cloneDeep_ids_bound c v i hmem
      exact ⟨hb.1, by omega⟩
    · have hb := cloneFields_ids_bound (cloneDeep c v).2 rest i hmem
      exact ⟨by omega, hb.2⟩
end

mutual
theorem mutate_eq_of_not_mem : ∀ (tid : Nat) (repl : HFields) (v : HVal),
    tid ∉ v.ids → mutate tid repl v = v
  | _, _, .prim _, _ => rfl
  | tid, repl, .obj j fields, h => by
    have h' := h
    simp only [HVal.ids, List.mem_cons, not_or] at h'
    show (if j = tid then HVal.obj j repl else HVal.obj j (mutateFields tid repl fields))
        = HVal.obj j fields
    rw [if_neg (fun hje => h'.1 hje.symm),
      mutateFields_eq_of_not_mem tid repl fields h'.2]
theorem mutateFields_eq_of_not_mem : ∀ (tid : Nat) (repl : HFields) (fs : HFields),
    tid ∉ fs.idsF → mutateFields tid repl fs = fs
  | _, _, .fnil, _ => rfl
  | tid, repl, .fcons k v rest, h => by
    have h' := h
    simp only [HFields.idsF, List.mem_append, not_or] at h'
    show HFields.fcons k (mutate tid repl v) (mutateFields tid repl rest)
        = HFields.fcons k v rest
    rw [mutate_eq_of_not_mem tid repl v h'.1,
      mutateFields_eq_of_not_mem tid repl rest h'.2]
end

mutual
theorem erase_cloneDeep : ∀ (c : Nat) (v : HVal), (cloneDeep c v).1.erase = v.erase
  | _, .prim _ => rfl
  | c, .obj j fields => by
    show EVal.eobj (cloneFields (c + 1) fields).1.eraseF = EVal.eobj fields.eraseF
    rw [eraseF_cloneFields]
theorem eraseF_cloneFields : ∀ (c : Nat) (fs : HFields), (cloneFields c fs).1.eraseF = fs.eraseF
  | _, .fnil => rfl
  | c, .fcons k v rest => by
    show EFields.econs k (cloneDeep c v).1.erase (cloneFields (cloneDeep c v).2 rest).1.eraseF
        = EFields.econs k v.erase rest.eraseF
    rw [erase_cloneDeep, eraseF_cloneFields]
end

theorem applyMutationState_eq_self (st : HState) (tid : Nat) (repl : HFields)
    (hwf : st.wf) (htid : st.counter ≤ tid) :
    applyMutationState tid repl st = st := by
  have key : ∀ v : HVal, (∀ i ∈ v.ids, i ∈ st.storedIds) → mutate tid repl v = v := by
    intro v hv
    refine mutate_eq_of_not_mem tid repl v (fun hm => ?_)
    have := hwf tid (hv tid hm)
    omega
  have h1 : mutate tid repl st.regularWGS84 = st.regularWGS84 := by
    refine key _ (fun i hi => ?_)
    unfold HState.storedIds
    simp only [List.mem_append]
    tauto
  have h2 : mutate tid repl st.cartogramWGS84 = st.cartogramWGS84 := by
    refine key _ (fun i hi => ?_)
    unfold HState.storedIds
    simp only [List.mem_append]
    tauto
  have h3 : mutate tid repl st.geographyLookup = st.geographyLookup := by
    refine key _ (fun i hi => ?_)
    unfold HState.storedIds
    simp only [List.mem_append]
    tauto
  have h4 : mutate tid repl st.cartogramLookup = st.cartogramLookup := by
    refine key _ (fun i hi => ?_)
    unfold HState.storedIds
    simp only [List.mem_append]
    tauto
  have h5 : mutate tid repl st.keyData = st.keyData := by
    refine key _ (fun i hi => ?_)
    unfold HState.storedIds
    simp only [List.mem_append]
    tauto
  rw [applyMutationState, h1, h2, h3, h4, h5]

def hStateC : HState :=
  { regularWGS84 := .obj 1 (.fcons "features" (.prim "sq") .fnil),
    cartogramWGS84 := .obj 2 .fnil,
    geographyLookup := .obj 3 .fnil,
    cartogramLookup := .obj 4 .fnil,
    keyData := .obj 0 (.fcons "A" (.prim "x") .fnil),
    counter := 5 }

/-- C3 counterexample: `getKeyData()` returns the cached summary map itself,
not a deep copy.  On a concrete prepared state the returned value is the
stored object (id 0 reachable from the result), and a caller mutation through
that alias changes what every later accessor call returns. -/
theorem C3_counterexample :
    (getKeyDataH hStateC).1 = HVal.obj 0 (.fcons "A" (.prim "x") .fnil)
    ∧ 0 ∈ (getKeyDataH hStateC).1.ids
    ∧ eraseResults (applyMutationState 0 (.fcons "A" (.prim "y") .fnil)
          (getKeyDataH hStateC).2)
        ≠ eraseResults (getKeyDataH hStateC).2 := by
  refine ⟨rfl, by decide, by decide⟩

/-- C3 (amended): the four collection/lookup accessors return deep copies —
their results carry only fresh object ids, so a caller mutation through any
id reachable from such a result leaves every subsequent accessor result
unchanged, and each copy is value-equal to the cached original — but
`getKeyData` returns the cached object itself (an alias, not a copy). -/
theorem C3_defensive_copies_amended :
    (∀ st : HState, (getKeyDataH st).1 = st.keyData)
    ∧ (∀ (st : HState) (tid : Nat) (repl : HFields), st.wf →
        (tid ∈ (getRegularFeatureCollectionH st).1.ids ∨
         tid ∈ (getCartogramFeatureCollectionH st).1.ids ∨
         tid ∈ (getGeographyLookupH st).1.ids ∨
         tid ∈ (getCartogramLookupH st).1.ids) →
        eraseResults (applyMutationState tid repl st) = eraseResults st)
    ∧ (∀ st : HState,
        (getRegularFeatureCollectionH st).1.erase = st.regularWGS84.erase ∧
        (getCartogramFeatureCollectionH st).1.erase = st.cartogramWGS84.erase ∧
        (getGeographyLookupH st).1.erase = st.geographyLookup.erase ∧
        (getCartogramLookupH st).1.erase = st.cartogramLookup.erase) := by
  refine ⟨fun st => rfl, ?_, ?_⟩
  · intro st tid repl hwf hmem
    have hc : st.counter ≤ tid := by
      rcases hmem with h | h | h | h
      · exact (cloneDeep_ids_bound st.counter st.regularWGS84 tid h).1
      · exact (cloneDeep_ids_bound st.counter st.cartogramWGS84 tid h).1
      · exact (cloneDeep_ids_bound st.counter st.geographyLookup tid h).1
      · exact (cloneDeep_ids_bound st.counter st.cartogramLookup tid h).1
    rw [applyMutationState_eq_self st tid repl hwf hc]
  · intro st
    exact ⟨erase_cloneDeep st.counter st.regularWGS84,
      erase_cloneDeep st.counter st.cartogramWGS84,
      erase_cloneDeep st.counter st.geographyLookup,
      erase_cloneDeep st.counter st.cartogramLookup⟩

/-- Witness for the amended C3 on a concrete well-formed state: id 5 is
reachable from `getRegularFeatureCollection`'s copy, and mutating object 5
leaves all accessor values unchanged. -/
theorem C3_defensive_copies_amended_witness :
    hStateC.wf
    ∧ 5 ∈ (getRegularFeatureCollectionH hStateC).1.ids
    ∧ eraseResults (applyMutationState 5 (.fcons "hacked" (.prim "y") .fnil) hStateC)
        = eraseResults hStateC := by
  have hwf : hStateC.wf := by
    show ∀ i ∈ hStateC.storedIds, i < hStateC.counter
    decide
  have hmem : 5 ∈ (getRegularFeatureCollectionH hStateC).1.ids := by decide
  exact ⟨hwf, hmem,
    C3_defensive_copies_amended.2.1 hStateC 5 (.fcons "hacked" (.prim "y") .fnil) hwf
      (Or.inl hmem)⟩

/-! ### C1: which regions appear in the interpolated output -/

/-- The visible, force-closed rings of `interpolate(factor)` (the `rings`
local of the closure, at an already-clamped factor). -/
def visRings (ris : List RingInterpolator) (factor : ℚ) : List GeoRing :=
  ris.filterMap (fun entry =>
    if entry.isVisible factor then some (ensureClosedRing (entry.interpolate factor))
    else Option.none)

/-- The `effectiveRings` local: rings of length `≥ 4` when any survive, the
raw visible rings otherwise. -/
def effRings (ris : List RingInterpolator) (factor : ℚ) : List GeoRing :=
  let rings := visRings ris factor
  let filteredRings := rings.filter (fun ring => decide (4 ≤ ring.length))
  if filteredRings.isEmpty then rings else filteredRings

/-- The `ringsToUse` local of the MultiPolygon branch. -/
def multiRingsToUse (ris : List RingInterpolator) (factor : ℚ) : List GeoRing :=
  let effectiveRings := effRings ris factor
  let multiRings := effectiveRings.filter (fun ring => decide (4 ≤ ring.length))
  if multiRings.isEmpty then effectiveRings else multiRings

/-- The Polygon branch packages exactly one ring (`find?` falling back to
`[]`), so its coordinates array is never empty. -/
theorem geometryInterpolateAt_poly_eq (ris : List RingInterpolator) (f : ℚ) :
    geometryInterpolateAt GeomType.polygonT ris f =
      Coords.polyCoords [((effRings ris (clampFactor f)).find?
        (fun candidate => decide (4 ≤ candidate.length))).getD []] := rfl

theorem geometryInterpolateAt_multi_eq (ris : List RingInterpolator) (f : ℚ) :
    geometryInterpolateAt GeomType.multiPolygonT ris f =
      Coords.multiCoords ((multiRingsToUse ris (clampFactor f)).map (fun ring => [ring])) := rfl

theorem polygonT_coords_nonempty (ris : List RingInterpolator) (f : ℚ) :
    (geometryInterpolateAt GeomType.polygonT ris f).isEmptyCoords = false := rfl

theorem iteFilterNil (l : List GeoRing) (p : GeoRing → Bool) :
    ((if (l.filter p).isEmpty then l else l.filter p) = []) ↔ l = [] := by
  split_ifs with h
  · exact Iff.rfl
  · constructor
    · intro hf
      rw [hf] at h
      simp at h
    · intro hl
      subst hl
      simp at h

theorem visRings_eq_nil (ris : List RingInterpolator) (t : ℚ) :
    visRings ris t = [] ↔ ∀ ri ∈ ris, ri.isVisible t = false := by
  rw [visRings, List.filterMap_eq_nil_iff]
  constructor
  · intro h ri hri
    have hh := h ri hri
    cases hb : ri.isVisible t
    · rfl
    · rw [hb] at hh
      simp at hh
  · intro h ri hri
    rw [h ri hri]
    simp

theorem effRings_eq_nil (ris : List RingInterpolator) (t : ℚ) :
    effRings ris t = [] ↔ visRings ris t = [] :=
  iteFilterNil (visRings ris t) (fun ring => decide (4 ≤ ring.length))

theorem multiRingsToUse_eq_nil (ris : List RingInterpolator) (t : ℚ) :
    multiRingsToUse ris t = [] ↔ effRings ris t = [] :=
  iteFilterNil (effRings ris t) (fun ring => decide (4 ≤ ring.length))

theorem multiPolygonT_coords_empty_iff (ris : List RingInterpolator) (f : ℚ) :
    (geometryInterpolateAt GeomType.multiPolygonT ris f).isEmptyCoords = true
      ↔ ∀ ri ∈ ris, ri.isVisible (clampFactor f) = false := by
  rw [geometryInterpolateAt_multi_eq]
  show ((multiRingsToUse ris (clampFactor f)).map (fun ring => [ring])).isEmpty = true ↔ _
  rw [List.isEmpty_iff, List.map_eq_nil_iff, multiRingsToUse_eq_nil, effRings_eq_nil,
    visRings_eq_nil]

theorem interpolatedFeature_isSome_iff (st : MorphState) (f : ℚ) (k : JVal)
    (gi : GeometryInterpolator) :
    (interpolatedFeature st f (k, gi)).isSome = true
      ↔ (getKey st.geographyLookup k).isSome = true
        ∧ (gi.interpolate f).isEmptyCoords = false := by
  cases hk : getKey st.geographyLookup k with
  | none => simp [interpolatedFeature, hk]
  | some base =>
    cases he : (gi.interpolate f).isEmptyCoords
    · simp [interpolatedFeature, hk, he]
    · simp [interpolatedFeature, hk, he]

def sqRingB : GeoRing := [(10, 0), (14, 0), (14, 4), (10, 4), (10, 0)]

def featA : Feature :=
  { fid := Option.none, properties := [("code", JVal.str "A")],
    geometry := some (Geometry.polygon [sqRing]), centroid := Option.none }

def featB : Feature :=
  { fid := Option.none, properties := [("code", JVal.str "B")],
    geometry := some (Geometry.polygon [sqRingB]), centroid := Option.none }

def featASmall : Feature :=
  { fid := Option.none, properties := [("code", JVal.str "A")],
    geometry := some (Geometry.polygon [sqRingSmall]), centroid := Option.none }

def regularC1 : FC := ⟨[featA, featB]⟩

def cartoC1 : FC := ⟨[featASmall]⟩

/-- The spec's scenario engine: a regular geography with two square regions
`"A"` and `"B"`, a cartogram geography containing only `"A"`, inline empty
row data and an identity projection. -/
def engineC1 : Engine :=
  { regularGeoJSON := regularC1,
    cartogramGeoJSON := CartogramInput.geo cartoC1,
    data := some [],
    getData := Option.none,
    joinColumn := "code",
    geoJSONJoinColumn := "code",
    aggregations := [],
    normalize := false,
    projection := fun p => Except.ok p,
    cartogramGridOptions := {},
    normalizedCartogramGeoJSON := Option.none,
    state := initialMorphState }

def glookC1 : List (JVal × Feature) :=
  createLookup regularC1.features (fun f => getKey f.properties "code")

def clookC1 : List (JVal × Feature) :=
  createLookup cartoC1.features (fun f => getKey f.properties "code")

/-- The state `prepare()` builds for `engineC1`. -/
def stC1 : MorphState :=
  { prepared := true,
    regularEnriched := some regularC1,
    cartogramEnriched := some cartoC1,
    regularWGS84 := some ⟨regularC1.features.map withCentroid⟩,
    cartogramWGS84 := some ⟨cartoC1.features.map withCentroid⟩,
    geographyLookup := glookC1.map (fun p => (p.1, withCentroid p.2)),
    cartogramLookup := clookC1.map (fun p => (p.1, withCentroid p.2)),
    keyData := keyDataOf regularC1 "code",
    interpolators := buildInterpolators glookC1 clookC1 }

def engineC1P : Engine :=
  { engineC1 with normalizedCartogramGeoJSON := some cartoC1, state := stC1 }

theorem prepareRun_engineC1 : prepareRun engineC1 = (engineC1P, Option.none) := rfl

def phB : GeoRing :=
  [(288/25, 38/25), (292/25, 38/25), (292/25, 42/25), (288/25, 42/25), (288/25, 38/25)]

theorem ensure_sqRing : ensureClosedRing sqRing = sqRing := by
  simp [ensureClosedRing, sqRing, List.getLast]

theorem ensure_sqRingSmall : ensureClosedRing sqRingSmall = sqRingSmall := by
  simp [ensureClosedRing, sqRingSmall, List.getLast]

theorem ensure_sqRingB : ensureClosedRing sqRingB = sqRingB := by
  simp [ensureClosedRing, sqRingB, List.getLast]

theorem centroid_sqRingB : computeRingCentroid sqRingB = (58/5, 8/5) := by
  norm_num [computeRingCentroid, sqRingB]

theorem bounds_sqRingB : computeRingBounds sqRingB = (4, 4) := by
  norm_num [computeRingBounds, sqRingB, min_def, max_def]

theorem createPlaceholderRing_sqRingB : createPlaceholderRing sqRingB = some phB := by
  rw [show sqRingB = (10, 0) :: [(14, 0), (14, 4), (10, 4), (10, 0)] from rfl]
  simp only [createPlaceholderRing]
  rw [show ((10, 0) : Point) :: [((14 : ℚ), (0 : ℚ)), (14, 4), (10, 4), (10, 0)] = sqRingB from rfl,
    centroid_sqRingB, bounds_sqRingB]
  norm_num [min_def, max_def, PLACEHOLDER_SCALE, MIN_PLACEHOLDER_SIZE, ensureClosedRing,
    phB, List.getLast]

def riA : RingInterpolator :=
  ⟨fun factor => flubberLerp sqRing sqRingSmall factor, fun _ => true⟩

def riB : RingInterpolator :=
  ⟨fun factor => flubberLerp sqRingB phB factor,
   fun factor => decide (factor < 1 - RING_VISIBILITY_EPSILON)⟩

def giA : GeometryInterpolator :=
  ⟨GeomType.polygonT, geometryInterpolateAt GeomType.polygonT [riA]⟩

def giB : GeometryInterpolator :=
  ⟨GeomType.polygonT, geometryInterpolateAt GeomType.polygonT [riB]⟩

theorem extract_sqRingB :
    extractOuterRings (some (Geometry.polygon [sqRingB])) = [sqRingB] := by
  simp [extractOuterRings, ensureClosedRing, sqRingB, List.getLast]

theorem createGI_A :
    createGeometryInterpolator (some (Geometry.polygon [sqRing]))
      (some (Geometry.polygon [sqRingSmall])) = some giA := by
  simp [createGeometryInterpolator, ringInterpolatorsOf, extractOuterRings,
    ensure_sqRing, ensure_sqRingSmall, matchRingPairs, matchGo, scanBest, scanBestGo,
    List.getD, isMultiPolygonType, createRingInterpolator, giA, riA]

theorem createGI_B :
    createGeometryInterpolator (some (Geometry.polygon [sqRingB])) Option.none = some giB := by
  simp [createGeometryInterpolator, ringInterpolatorsOf, extractOuterRings,
    ensure_sqRingB, matchRingPairs, matchGo, scanBest, scanBestGo,
    List.getD, isMultiPolygonType, createRingInterpolator, createPlaceholderRing_sqRingB,
    giB, riB]

theorem interpolators_C1 :
    stC1.interpolators = [(JVal.str "A", giA), (JVal.str "B", giB)] := by
  have hg : glookC1 = [(JVal.str "A", featA), (JVal.str "B", featB)] := rfl
  have hc : clookC1 = [(JVal.str "A", featASmall)] := rfl
  rw [show stC1.interpolators = buildInterpolators glookC1 clookC1 from rfl, hg, hc]
  simp only [buildInterpolators, List.foldl]
  simp [getKey, setKey, featA, featB, featASmall, createGI_A, createGI_B, Option.bind]

theorem stC1_geographyLookup :
    stC1.geographyLookup
      = [(JVal.str "A", withCentroid featA), (JVal.str "B", withCentroid featB)] := rfl

theorem interpolatedFC_C1_len (f : ℚ) : (interpolatedFC stC1 f).features.length = 2 := by
  have hbA : (getKey stC1.geographyLookup (JVal.str "A")).isSome = true := by
    rw [stC1_geographyLookup]; rfl
  have hbB : (getKey stC1.geographyLookup (JVal.str "B")).isSome = true := by
    rw [stC1_geographyLookup]; rfl
  have hA := (interpolatedFeature_isSome_iff stC1 f (JVal.str "A") giA).mpr
    ⟨hbA, polygonT_coords_nonempty [riA] f⟩
  have hB := (interpolatedFeature_isSome_iff stC1 f (JVal.str "B") giB).mpr
    ⟨hbB, polygonT_coords_nonempty [riB] f⟩
  obtain ⟨vA, hvA⟩ := Option.isSome_iff_exists.mp hA
  obtain ⟨vB, hvB⟩ := Option.isSome_iff_exists.mp hB
  rw [interpolatedFC, interpolators_C1]
  simp [List.filterMap_cons, hvA, hvB]

/-- C1 counterexample: the spec's own scenario (regular geography with the
two square regions `"A"` and `"B"`, cartogram geography containing only
`"A"`).  `prepare()` succeeds, the disappear-side ring interpolator of `"B"`
is invisible at factor `1` — yet its Polygon-typed geometry interpolator
returns the one-element coordinates array `[[]]`, which is not empty, so
`getInterpolatedFeatureCollection(1)` still emits the region:
all three factors `0`, `0.5`, `1` yield `2` features, not `2`, `2`, `1`. -/
theorem C1_counterexample :
    prepareRun engineC1 = (engineC1P, Option.none)
    ∧ riB.isVisible (clampFactor 1) = false
    ∧ giB.interpolate 1 = Coords.polyCoords [[]]
    ∧ stC1.interpolators = [(JVal.str "A", giA), (JVal.str "B", giB)]
    ∧ getInterpolatedFeatureCollectionE engineC1P 0 = Except.ok (interpolatedFC stC1 0)
    ∧ getInterpolatedFeatureCollectionE engineC1P (1/2) = Except.ok (interpolatedFC stC1 (1/2))
    ∧ getInterpolatedFeatureCollectionE engineC1P 1 = Except.ok (interpolatedFC stC1 1)
    ∧ (interpolatedFC stC1 0).features.length = 2
    ∧ (interpolatedFC stC1 (1/2)).features.length = 2
    ∧ (interpolatedFC stC1 1).features.length = 2 := by
  refine ⟨prepareRun_engineC1, ?_, ?_, interpolators_C1, rfl, rfl, rfl,
    interpolatedFC_C1_len 0, interpolatedFC_C1_len (1/2), interpolatedFC_C1_len 1⟩
  · rw [clampFactor_one]
    show decide ((1 : ℚ) < 1 - RING_VISIBILITY_EPSILON) = false
    apply decide_eq_false
    rw [RING_VISIBILITY_EPSILON]
    norm_num
  · have hvis : riB.isVisible 1 = false := by
      show decide ((1 : ℚ) < 1 - RING_VISIBILITY_EPSILON) = false
      apply decide_eq_false
      rw [RING_VISIBILITY_EPSILON]
      norm_num
    show geometryInterpolateAt GeomType.polygonT [riB] 1 = Coords.polyCoords [[]]
    rw [geometryInterpolateAt_poly_eq]
    have hv : visRings [riB] (clampFactor 1) = [] := by
      rw [clampFactor_one, visRings]
      simp [hvis]
    have he : effRings [riB] (clampFactor 1) = [] := (effRings_eq_nil _ _).mpr hv
    rw [he]
    rfl

/-- C1 (amended): a Polygon-typed geometry interpolator's coordinates array
is never empty (it is always `[ring]`, with `ring` possibly `[]`), so
Polygon-typed regions are never dropped from the interpolated output; a
MultiPolygon-typed interpolator's coordinates are empty exactly when every
ring interpolator is invisible at the clamped factor; and an interpolator
entry contributes a feature exactly when its base feature is in the
geography lookup and its interpolated coordinates are non-empty. -/
theorem C1_interpolated_emission_amended :
    (∀ (ris : List RingInterpolator) (f : ℚ),
        (geometryInterpolateAt GeomType.polygonT ris f).isEmptyCoords = false)
    ∧ (∀ (ris : List RingInterpolator) (f : ℚ),
        ((geometryInterpolateAt GeomType.multiPolygonT ris f).isEmptyCoords = true
          ↔ ∀ ri ∈ ris, ri.isVisible (clampFactor f) = false))
    ∧ (∀ (st : MorphState) (f : ℚ) (k : JVal) (gi : GeometryInterpolator),
        ((interpolatedFeature st f (k, gi)).isSome = true
          ↔ (getKey st.geographyLookup k).isSome = true
            ∧ (gi.interpolate f).isEmptyCoords = false)) :=
  ⟨polygonT_coords_nonempty, multiPolygonT_coords_empty_iff, interpolatedFeature_isSome_iff⟩

/-- Witness for the amended C1 at concrete inputs: region `"B"`'s single
ring interpolator at factor `1` — emitted under the Polygon type, dropped
under the MultiPolygon type, and its engine entry still yields a feature. -/
theorem C1_interpolated_emission_amended_witness :
    (geometryInterpolateAt GeomType.polygonT [riB] (1/2)).isEmptyCoords = false
    ∧ (geometryInterpolateAt GeomType.multiPolygonT [riB] 1).isEmptyCoords = true
    ∧ (interpolatedFeature stC1 1 (JVal.str "B", giB)).isSome = true := by
  refine ⟨C1_interpolated_emission_amended.1 [riB] (1/2), ?_, ?_⟩
  · refine (C1_interpolated_emission_amended.2.1 [riB] 1).mpr ?_
    intro ri hri
    rw [List.mem_singleton.mp hri, clampFactor_one]
    show decide ((1 : ℚ) < 1 - RING_VISIBILITY_EPSILON) = false
    apply decide_eq_false
    rw [RING_VISIBILITY_EPSILON]
    norm_num
  · refine (C1_interpolated_emission_amended.2.2 stC1 1 (JVal.str "B") giB).mpr ⟨?_, ?_⟩
    · rw [stC1_geographyLookup]; rfl
    · exact C1_interpolated_emission_amended.1 [riB] 1
